import Mathlib

/-!
Verification development for the GrasshopperDefine repository.

This file shallowly embeds the parsing/decoding core of the repository
(`src/lib/grasshopper-parser.ts` and `src/lib/rhino-compute.ts`) as
executable Lean definitions and proves properties of those definitions.

Modelling conventions:
  - A Node `Buffer` is a `List Nat`, each element a byte value `< 256`.
  - A JavaScript string is a `List Char`.
  - A JavaScript number is a `JSNum`: either an exact rational (`fin q`)
    or one of the special values `NaN`, `Infinity`, `-Infinity`; array
    holes / `undefined` flowing into arithmetic are `undefined`.  All numbers
    actually produced by the decoders are exact binary floats, which are
    rationals, so a rational payload is exact.
  - `Math.sqrt` is a real-valued operation; it is abstracted as an explicit
    function parameter `s : ℚ → ℚ` of the definitions that use it.  General
    theorems quantify over `s`; concrete evaluations instantiate `s` with
    `ratSqrt`, the exact rational square root (and state the exactness of
    the square roots actually taken, e.g. `ratSqrt 4 = 2`), so the
    evaluated runs agree with the real `Math.sqrt` semantics.
-/

namespace GHDef

/-- Bytes of a Node buffer. -/
abbrev Bytes := List Nat

/-- Does the first list occur at the head of the second list? -/
def startsWith : List Char → List Char → Bool
  | [], _ => true
  | _ :: _, [] => false
  | a :: as, b :: bs => if a = b then startsWith as bs else false

/-- Byte-list version of `startsWith`. -/
def startsWithB : Bytes → Bytes → Bool
  | [], _ => true
  | _ :: _, [] => false
  | a :: as, b :: bs => if a = b then startsWithB as bs else false

/-- Scan helper for `bufIndexOf`: position of the first occurrence of
`needle` in the remaining list, counting positions from `i`. -/
def indexOfAuxB (needle : Bytes) : Bytes → Nat → Option Nat
  | [], i => if needle = [] then some i else none
  | a :: rest, i =>
    if startsWithB needle (a :: rest) then some i else indexOfAuxB needle rest (i + 1)

/-- Model of `Buffer.prototype.indexOf(needle, start)` (byte level):
`some p` is the first occurrence position, `none` is JavaScript's `-1`. -/
def bufIndexOf (hay needle : Bytes) (start : Nat) : Option Nat :=
  indexOfAuxB needle (hay.drop start) start

/-- Scan helper for `strIndexOf`. -/
def indexOfAuxS (needle : List Char) : List Char → Nat → Option Nat
  | [], i => if needle = [] then some i else none
  | a :: rest, i =>
    if startsWith needle (a :: rest) then some i else indexOfAuxS needle rest (i + 1)

/-- Model of `String.prototype.indexOf` / the search behind `includes`. -/
def strIndexOf (hay needle : List Char) (start : Nat) : Option Nat :=
  indexOfAuxS needle (hay.drop start) start

/-- Model of `String.prototype.includes`. -/
def strIncludes (hay needle : List Char) : Bool :=
  (strIndexOf hay needle 0).isSome

/-- Byte encoding of an ASCII string literal. -/
def bytesOf (s : String) : Bytes := s.toList.map Char.toNat

/-- Model of `buffer.slice(a, b)` (with both bounds already clamped by the
caller, as every call site in the source does via `Math.max`/`Math.min`). -/
def bufSlice (b : Bytes) (lo hi : Nat) : Bytes := (b.take hi).drop lo

/-- Model of `buffer.readUInt32LE(off)`; every call site in the modelled
source is bounds-checked, so missing bytes default to 0 harmlessly. -/
def readUInt32LE (b : Bytes) (off : Nat) : Nat :=
  b.getD off 0 + 256 * b.getD (off + 1) 0 + 65536 * b.getD (off + 2) 0 +
    16777216 * b.getD (off + 3) 0

/-- JavaScript numbers as they occur in the modelled code: exact rationals
plus the IEEE special values, plus `undefined` for `undefined` read from an
array hole or out-of-bounds index. -/
inductive JSNum where
  | fin (q : ℚ)
  | nan
  | inf
  | ninf
  | undefined
deriving DecidableEq, Repr

/-- Model of `Number.isFinite`. -/
def JSNum.isFinite : JSNum → Bool
  | .fin _ => true
  | _ => false

/-- JavaScript addition (`undefined` operands coerce to `NaN`). -/
def jsAdd : JSNum → JSNum → JSNum
  | .fin a, .fin b => .fin (a + b)
  | .inf, .inf => .inf
  | .inf, .fin _ => .inf
  | .fin _, .inf => .inf
  | .ninf, .ninf => .ninf
  | .ninf, .fin _ => .ninf
  | .fin _, .ninf => .ninf
  | _, _ => .nan

/-- JavaScript unary minus. -/
def jsNeg : JSNum → JSNum
  | .fin a => .fin (-a)
  | .inf => .ninf
  | .ninf => .inf
  | _ => .nan

/-- JavaScript subtraction. -/
def jsSub (a b : JSNum) : JSNum := jsAdd a (jsNeg b)

/-- JavaScript multiplication. -/
def jsMul : JSNum → JSNum → JSNum
  | .fin a, .fin b => .fin (a * b)
  | .fin a, .inf => if a = 0 then .nan else if 0 < a then .inf else .ninf
  | .inf, .fin a => if a = 0 then .nan else if 0 < a then .inf else .ninf
  | .fin a, .ninf => if a = 0 then .nan else if 0 < a then .ninf else .inf
  | .ninf, .fin a => if a = 0 then .nan else if 0 < a then .ninf else .inf
  | .inf, .inf => .inf
  | .inf, .ninf => .ninf
  | .ninf, .inf => .ninf
  | .ninf, .ninf => .inf
  | _, _ => .nan

/-- JavaScript division (rationals have no signed zero; the modelled code
only divides by values checked to be `> 0`, where this is exact). -/
def jsDiv : JSNum → JSNum → JSNum
  | .fin a, .fin b =>
    if b = 0 then (if a = 0 then .nan else if 0 < a then .inf else .ninf)
    else .fin (a / b)
  | .fin _, .inf => .fin 0
  | .fin _, .ninf => .fin 0
  | .inf, .fin b => if 0 ≤ b then .inf else .ninf
  | .ninf, .fin b => if 0 ≤ b then .ninf else .inf
  | _, _ => .nan

/-- JavaScript `<` (false whenever `NaN`/`undefined` is involved). -/
def jsLt : JSNum → JSNum → Bool
  | .fin a, .fin b => decide (a < b)
  | .fin _, .inf => true
  | .ninf, .fin _ => true
  | .ninf, .inf => true
  | _, _ => false

/-- Model of `Math.sqrt` at abstract square-root function `s`. -/
def jsSqrt (s : ℚ → ℚ) : JSNum → JSNum
  | .fin q => if q < 0 then .nan else .fin (s q)
  | .inf => .inf
  | _ => .nan

/-- Structural natural square root (largest `k` with `k * k ≤ n`), used by
`ratSqrt`; linear search keeps it kernel-reducible, and it is only ever
evaluated at tiny arguments. -/
def natSqrtAux (n : Nat) : Nat → Nat
  | 0 => 0
  | k + 1 => if (k + 1) * (k + 1) ≤ n then k + 1 else natSqrtAux n k

/-- Structural natural square root. -/
def natSqrt (n : Nat) : Nat := natSqrtAux n n

/-- Exact rational square root: the true square root when the argument is a
square of a rational, 0 otherwise.  Used to instantiate the abstract
`Math.sqrt` parameter in concrete runs, whose statements additionally
record the exactness of every root actually taken. -/
def ratSqrt (q : ℚ) : ℚ :=
  let n := natSqrt q.num.toNat
  let d := natSqrt q.den
  if 0 ≤ q.num ∧ n * n = q.num.toNat ∧ d * d = q.den then (n : ℚ) / (d : ℚ) else 0

/-- Exact value of an IEEE-754 binary32 number given its four little-endian
bytes, as read by `buffer.readFloatLE` (the float-to-double conversion
performed by JavaScript is exact). -/
def decodeFloat32 (b0 b1 b2 b3 : Nat) : JSNum :=
  let bits : Nat := b0 + 256 * b1 + 65536 * b2 + 16777216 * b3
  let sign : Nat := bits / 2 ^ 31
  let exp : Nat := bits / 2 ^ 23 % 256
  let frac : Nat := bits % 2 ^ 23
  if exp = 255 then
    if frac = 0 then (if sign = 1 then .ninf else .inf) else .nan
  else
    let mag : ℚ :=
      if exp = 0 then (frac : ℚ) * (2 : ℚ) ^ (-(149 : ℤ))
      else ((2 ^ 23 + frac : ℕ) : ℚ) * (2 : ℚ) ^ ((exp : ℤ) - 150)
    .fin (if sign = 1 then -mag else mag)

/-- Model of `buffer.readFloatLE(off)` (all call sites are bounds-checked). -/
def readFloatLE (b : Bytes) (off : Nat) : JSNum :=
  decodeFloat32 (b.getD off 0) (b.getD (off + 1) 0) (b.getD (off + 2) 0)
    (b.getD (off + 3) 0)

/-- Unicode replacement character emitted for invalid UTF-8 input. -/
def repChar : Char := Char.ofNat 0xFFFD

/-- Is this byte a UTF-8 continuation byte? -/
def isCont (b : Nat) : Bool := decide (0x80 ≤ b) && decide (b < 0xC0)

/-- Fuel-indexed UTF-8 decoding loop; one byte of fuel per input byte
suffices since every step consumes at least one byte. -/
def utf8DecodeAux : Nat → List Nat → List Char
  | 0, _ => []
  | _ + 1, [] => []
  | fuel + 1, b :: rest =>
    if b < 0x80 then Char.ofNat b :: utf8DecodeAux fuel rest
    else if b < 0xC2 then repChar :: utf8DecodeAux fuel rest
    else if b < 0xE0 then
      match rest with
      | c1 :: rest2 =>
        if isCont c1 then
          Char.ofNat ((b - 0xC0) * 64 + (c1 - 0x80)) :: utf8DecodeAux fuel rest2
        else repChar :: utf8DecodeAux fuel rest
      | [] => [repChar]
    else if b < 0xF0 then
      match rest with
      | c1 :: c2 :: rest2 =>
        if isCont c1 && isCont c2 then
          let cp := (b - 0xE0) * 4096 + (c1 - 0x80) * 64 + (c2 - 0x80)
          if cp < 0x800 ∨ (0xD800 ≤ cp ∧ cp < 0xE000) then
            repChar :: utf8DecodeAux fuel rest2
          else Char.ofNat cp :: utf8DecodeAux fuel rest2
        else repChar :: utf8DecodeAux fuel rest
      | _ => [repChar]
    else if b < 0xF8 then
      match rest with
      | c1 :: c2 :: c3 :: rest2 =>
        if isCont c1 && isCont c2 && isCont c3 then
          let cp := (b - 0xF0) * 262144 + (c1 - 0x80) * 4096 + (c2 - 0x80) * 64 +
            (c3 - 0x80)
          if cp < 0x10000 ∨ 0x110000 ≤ cp then repChar :: utf8DecodeAux fuel rest2
          else Char.ofNat cp :: utf8DecodeAux fuel rest2
        else repChar :: utf8DecodeAux fuel rest
      | _ => [repChar]
    else repChar :: utf8DecodeAux fuel rest

/-- Model of `buffer.toString('utf8')`: decode with U+FFFD replacement for
invalid sequences.  (All buffers evaluated in this file contain only ASCII
bytes and isolated invalid bytes, on which every standard replacement
policy agrees.) -/
def utf8Decode (l : Bytes) : List Char := utf8DecodeAux l.length l

/-- UTF-8 encoding of one scalar value. -/
def utf8EncodeChar (c : Char) : List Nat :=
  let n := c.toNat
  if n < 0x80 then [n]
  else if n < 0x800 then [0xC0 + n / 64, 0x80 + n % 64]
  else if n < 0x10000 then [0xE0 + n / 4096, 0x80 + n / 64 % 64, 0x80 + n % 64]
  else [0xF0 + n / 262144, 0x80 + n / 4096 % 64, 0x80 + n / 64 % 64, 0x80 + n % 64]

/-- Model of `Buffer.from(string, 'utf8')`. -/
def utf8Encode (s : List Char) : Bytes := (s.map utf8EncodeChar).flatten

/-- Base64 alphabet value of a character, `none` for any other character
(Node's decoder skips those). -/
def b64Val (c : Char) : Option Nat :=
  if 'A' ≤ c ∧ c ≤ 'Z' then some (c.toNat - 65)
  else if 'a' ≤ c ∧ c ≤ 'z' then some (c.toNat - 97 + 26)
  else if '0' ≤ c ∧ c ≤ '9' then some (c.toNat - 48 + 52)
  else if c = '+' then some 62
  else if c = '/' then some 63
  else none

/-- Decode base64 sextet values four at a time; a trailing group of two or
three values contributes one or two bytes, as in Node. -/
def b64Groups : List Nat → Bytes
  | a :: b :: c :: d :: rest =>
    let n := a * 262144 + b * 4096 + c * 64 + d
    n / 65536 :: n / 256 % 256 :: n % 256 :: b64Groups rest
  | [a, b] => [(a * 4 + b / 16) % 256]
  | [a, b, c] => [(a * 4 + b / 16) % 256, (b % 16 * 16 + c / 4) % 256]
  | _ => []

/-- Model of Node's lenient `Buffer.from(string, 'base64')`: characters
outside the base64 alphabet are skipped, and the decoder never throws.
(Consequently the `catch` branch around this call in `parseMeshData`, which
would attempt a JSON parse, is unreachable.) -/
def base64Decode (s : List Char) : Bytes := b64Groups (s.filterMap b64Val)

/-- Is this an ASCII letter? -/
def isAsciiLetter (c : Char) : Bool :=
  ('A' ≤ c && c ≤ 'Z') || ('a' ≤ c && c ≤ 'z')

/-- Is this an ASCII digit? -/
def isAsciiDigit (c : Char) : Bool := '0' ≤ c && c ≤ '9'

/-- Whitespace as matched by JavaScript's regexp class and trimmed by
`String.prototype.trim` (ASCII forms plus NBSP and the BOM; the exotic
Unicode space characters never occur in the evaluated inputs). -/
def isJsSpace (c : Char) : Bool :=
  c = ' ' || c = '\t' || c = '\n' || c = '\r' || c.toNat = 0x0B || c.toNat = 0x0C ||
    c.toNat = 0xA0 || c.toNat = 0xFEFF

/-- Model of `String.prototype.trim`. -/
def trimWS (s : List Char) : List Char :=
  ((s.dropWhile isJsSpace).reverse.dropWhile isJsSpace).reverse

/-- ASCII lower-casing, as `String.prototype.toLowerCase` acts on the ASCII
strings it is applied to in the modelled source. -/
def lowerStr (s : List Char) : List Char := s.map Char.toLower

/-- ASCII upper-casing. -/
def upperStr (s : List Char) : List Char := s.map Char.toUpper

/-- Decimal digits of a natural number, as JavaScript renders it inside a
template literal. -/
def natToChars (n : Nat) : List Char := Nat.toDigits 10 n

/-- Two lowercase hex digits of a byte, as produced by
`n.toString(16).padStart(2, '0')` for byte values. -/
def byteToHex (b : Nat) : List Char :=
  [Nat.digitChar (b / 16 % 16), Nat.digitChar (b % 16)]

/-- Model of `buffer.toString('hex')`. -/
def hexEncode (b : Bytes) : List Char := (b.map byteToHex).flatten

/-! Embedding of the format validator of `src/lib/grasshopper-parser.ts`
(class `GrasshopperParser`). -/

namespace GrasshopperParser

open GHDef

/-- Is a byte counted as printable text by `calculateTextRatio`? -/
def isPrintableByte (b : Nat) : Bool :=
  (decide (32 ≤ b) && decide (b ≤ 126)) || b = 9 || b = 10 || b = 13

/-- Model of `calculateNullByteRatio` (every call site has a non-empty
buffer, so the division is well-defined). -/
def calculateNullByteRatio (b : Bytes) : ℚ :=
  ((b.count 0 : ℕ) : ℚ) / (b.length : ℚ)

/-- Model of `calculateTextRatio`: printable-ASCII ratio over the first
`min 10000 length` bytes. -/
def calculateTextRatio (b : Bytes) : ℚ :=
  let sampleSize := min 10000 b.length
  (((b.take sampleSize).filter isPrintableByte).length : ℚ) / (sampleSize : ℚ)

/-- The text-ratio rejection condition exactly as written in
`validateFileStructure`: `textRatio < 0.1 && textRatio > 0.9`. -/
def textRatioRejects (b : Bytes) : Bool :=
  decide (calculateTextRatio b < (1 : ℚ) / 10) &&
    decide ((9 : ℚ) / 10 < calculateTextRatio b)

/-- Model of `validateFileHeader`: one of five signatures found within the
first 1000 bytes. -/
def validateFileHeader (b : Bytes) : Bool :=
  [[0x00], bytesOf "<?xml", bytesOf "<DataContract", bytesOf "GH_",
      bytesOf "Grasshopper"].any
    fun h =>
      match bufIndexOf b h 0 with
      | some i => decide (i < 1000)
      | none => false

/-- Model of `validateFileStructure`. -/
def validateFileStructure (b : Bytes) : Bool :=
  if (8 : ℚ) / 10 < calculateNullByteRatio b then false
  else if textRatioRejects b then false
  else if ¬ validateFileHeader b then false
  else true

/-- Model of `checkForNetSerialization` (byte-level `Buffer.indexOf`). -/
def checkForNetSerialization (b : Bytes) : Bool :=
  [[0x00, 0x01], bytesOf "System.", bytesOf "mscorlib"].any
    fun sig => (bufIndexOf b sig 0).isSome

/-- Model of `checkForGrasshopperMarkers` (string-level search over the
UTF-8 decoding of the first 10000 bytes). -/
def checkForGrasshopperMarkers (b : Bytes) : Bool :=
  let s := utf8Decode (b.take (min b.length 10000))
  ["Grasshopper", "GH_Document", "DocumentIO", "57da07bd", "59e0b89a"].any
    fun m => strIncludes s m.toList

/-- Greedy match of `k` dot-separated runs of digits (`[0-9]+(\.[0-9]+)*`),
returning the matched characters.  Greedy maximal digit runs are exact here
because a shortened run would leave a digit where a dot is required. -/
def matchVersionRun : Nat → List Char → Option (List Char)
  | 0, _ => none
  | 1, cs =>
    let d := cs.takeWhile isAsciiDigit
    if d = [] then none else some d
  | k + 2, cs =>
    let d := cs.takeWhile isAsciiDigit
    if d = [] then none
    else
      match cs.drop d.length with
      | '.' :: rest => (matchVersionRun (k + 1) rest).map (fun g => d ++ '.' :: g)
      | _ => none

/-- Case-insensitive ASCII prefix test. -/
def startsWithCI (needle hay : List Char) : Bool :=
  startsWith (lowerStr needle) (lowerStr hay)

/-- Leftmost match of the source pattern
`Version\s*[:=]\s*([0-9]+\.[0-9]+\.[0-9]+)` (case-insensitive), returning
the captured group. -/
def scanVersionPat1 : List Char → Option (List Char)
  | [] => none
  | c :: rest =>
    (if startsWithCI "version".toList (c :: rest) then
        let t := ((c :: rest).drop 7).dropWhile isJsSpace
        match t with
        | ':' :: t2 => matchVersionRun 3 (t2.dropWhile isJsSpace)
        | '=' :: t2 => matchVersionRun 3 (t2.dropWhile isJsSpace)
        | _ => none
      else none) <|>
      scanVersionPat1 rest

/-- Leftmost match of `v([0-9]+\.[0-9]+)` (case-insensitive). -/
def scanVersionPat2 : List Char → Option (List Char)
  | [] => none
  | c :: rest =>
    (if c = 'v' ∨ c = 'V' then matchVersionRun 2 rest else none) <|>
      scanVersionPat2 rest

/-- Leftmost match of `([0-9]+\.[0-9]+\.[0-9]+\.[0-9]+)`. -/
def scanVersionPat3 : List Char → Option (List Char)
  | [] => none
  | c :: rest => matchVersionRun 4 (c :: rest) <|> scanVersionPat3 rest

/-- Model of `extractDocumentVersion`: the three patterns are tried in
order; `none` models the `"unknown"` result. -/
def extractDocumentVersion (b : Bytes) : Option (List Char) :=
  let text := utf8Decode b
  scanVersionPat1 text <|> scanVersionPat2 text <|> scanVersionPat3 text

/-- Does `ver` consist exactly of `k` dot-separated digit runs (the
anchored `^[0-9]+(\.[0-9]+)*$` tests of `validateDocumentVersion`)? -/
def isFullVersion (k : Nat) (ver : List Char) : Bool :=
  match matchVersionRun k ver with
  | some g => g = ver
  | none => false

/-- Model of `validateDocumentVersion`: unknown versions are allowed;
otherwise the version must match one of three anchored formats. -/
def validateDocumentVersion (b : Bytes) : Bool :=
  match extractDocumentVersion (b.take 5000) with
  | none => true
  | some ver => isFullVersion 2 ver || isFullVersion 3 ver || isFullVersion 4 ver

/-- Model of `validateRequiredComponents`: at least one of two byte-level
markers present anywhere in the buffer. -/
def validateRequiredComponents (b : Bytes) : Bool :=
  decide (0 < (["GH_Document", "DocumentIO"].filter
    fun m => (bufIndexOf b (bytesOf m) 0).isSome).length)

/-- Model of `isDataContractSerialization`. -/
def isDataContractSerialization (b : Bytes) (pos : Nat) : Bool :=
  ["<DataContract", "System.Runtime.Serialization", "DataContractSerializer"].any
    fun m =>
      match bufIndexOf b (bytesOf m) pos with
      | some i => decide (i < pos + 1000)
      | none => false

/-- Model of `isXmlSerialization`. -/
def isXmlSerialization (b : Bytes) (pos : Nat) : Bool :=
  ["<?xml", "<root", "System.Xml.Serialization"].any
    fun m =>
      match bufIndexOf b (bytesOf m) pos with
      | some i => decide (i < pos + 1000)
      | none => false

/-- Model of `skipBinaryHeader` plus the embedded
`parseBinaryFormatterHeader`, returning the final reader position. -/
def skipBinaryHeader (b : Bytes) : Nat :=
  if b.length < 16 then 0
  else if b.getD 0 0 = 0 then
    if b.length < 18 then 1
    else if b.getD 1 0 = 0 then 18 else 2
  else if isDataContractSerialization b 0 then
    match bufIndexOf b (bytesOf "<DataContract") 0 with
    | some i => i
    | none => 0
  else if isXmlSerialization b 0 then
    match bufIndexOf b (bytesOf "<?xml") 0 with
    | some x =>
      match bufIndexOf b (bytesOf "?>") x with
      | some e => e + 2
      | none => x
    | none => 0
  else 0

/-- Model of `extractTypeName`: longest `[A-Za-z0-9_.]` run at the head of
the UTF-8 decoding of a 200-byte segment. -/
def extractTypeName (b : Bytes) (pos : Nat) : Option (List Char) :=
  let segment := bufSlice b (min b.length pos) (min b.length (pos + 200))
  let text := utf8Decode segment
  let m := text.takeWhile fun c =>
    isAsciiLetter c || isAsciiDigit c || c = '_' || c = '.'
  if m = [] then none else some m

/-- One pattern's scan loop of `findNetObjectReferences`; the fuel bounds
the number of occurrences, which the strictly increasing search position
caps at the buffer length. -/
def netRefsScan (b : Bytes) (pat : Bytes) :
    Nat → Nat → List (Nat × List Char) → List (Nat × List Char)
  | 0, _, acc => acc
  | fuel + 1, searchPos, acc =>
    match bufIndexOf b pat searchPos with
    | none => acc
    | some idx =>
      let acc' :=
        match extractTypeName b idx with
        | some tn => acc ++ [(idx, tn)]
        | none => acc
      if 50 ≤ acc'.length then acc' else netRefsScan b pat fuel (idx + 1) acc'

/-- Model of `findNetObjectReferences`: occurrences of five .NET name
patterns, with their extracted type names. -/
def findNetObjectReferences (b : Bytes) (startPos : Nat) : List (Nat × List Char) :=
  ["System.", "Grasshopper.", "Rhino.", "GH_", "mscorlib"].foldl
    (fun acc pat => netRefsScan b (bytesOf pat) (b.length + 1) startPos acc) []

/-- Model of `findGrasshopperDocument`, returning the position of the found
document data (the first marker hit, or the first .NET object reference).
The `type`/`structure` metadata fields of the source's return value are not
modelled: nothing downstream reads them (`extractParametersFromDocument`
ignores its `documentData` argument). -/
def findGrasshopperDocument (b : Bytes) (pos : Nat) : Option Nat :=
  let markers := ["GH_Document", "DocumentIO", "Grasshopper.Kernel.GH_Document",
    "Grasshopper.Kernel.GH_DocumentIO", "GH_Archive"]
  match markers.findSome? (fun m => bufIndexOf b (bytesOf m) pos) with
  | some i => some i
  | none =>
    match findNetObjectReferences b pos with
    | [] => none
    | (p, _) :: _ => some p

/-- Model of `validateBinaryConsistency`: the header skip followed by the
document search must succeed. -/
def validateBinaryConsistency (b : Bytes) : Bool :=
  (findGrasshopperDocument b (skipBinaryHeader b)).isSome

/-- Model of `validateGrasshopperFile`: size bounds, structure check, then
the conjunction of the marker/version/component/consistency checks. -/
def validateGrasshopperFile (b : Bytes) : Bool :=
  if b.length < 100 then false
  else if 100 * 1024 * 1024 < b.length then false
  else if ¬ validateFileStructure b then false
  else
    (checkForNetSerialization b || checkForGrasshopperMarkers b) &&
      validateDocumentVersion b && validateRequiredComponents b &&
      validateBinaryConsistency b

/-- Model of a candidate component record, as built by
`extractComponentData`: the GUID hit position, the carved byte window, and
the window's start offset. -/
structure CompData where
  position : Nat
  buffer : Bytes
  dataStart : Nat
deriving DecidableEq, Repr

/-- Model of `extractComponentData` (total: the slice never fails). -/
def extractComponentData (b : Bytes) (position : Nat) : CompData :=
  { position := position
    buffer := bufSlice b (position - 1000) (min b.length (position + 1000))
    dataStart := position - 1000 }

/-- Occurrence scan of one GUID encoding (`while` loop of
`findComponentsByGuid`); the search position strictly increases, so fuel
`b.length + 1` is never exhausted. -/
def guidScan (b : Bytes) (pat : Bytes) : Nat → Nat → List CompData → List CompData
  | 0, _, acc => acc
  | fuel + 1, searchPos, acc =>
    match bufIndexOf b pat searchPos with
    | none => acc
    | some idx => guidScan b pat fuel (idx + 1) (acc ++ [extractComponentData b idx])

/-- Model of `findComponentsByGuid`: all occurrences of the four textual
encodings of a GUID, in encoding order then position order. -/
def findComponentsByGuid (b : Bytes) (guid : List Char) : List CompData :=
  let guidFormats := [lowerStr (guid.filter (· ≠ '-')), upperStr (guid.filter (· ≠ '-')),
    lowerStr guid, upperStr guid]
  guidFormats.foldl (fun acc gf => guidScan b (utf8Encode gf) (b.length + 1) 0 acc) []

/-- Stride-4 scan of `findFloatValues`: keep every 4-byte little-endian
float that is finite and strictly inside `(-1e6, 1e6)`. -/
def findFloatsAux : Bytes → List ℚ
  | b0 :: b1 :: b2 :: b3 :: rest =>
    (match decodeFloat32 b0 b1 b2 b3 with
      | .fin q => if -1000000 < q ∧ q < 1000000 then [q] else []
      | _ => []) ++ findFloatsAux rest
  | _ => []

/-- Model of `findFloatValues` (the push-all-then-`slice(0, 10)` of the
source equals taking the first 10 accepted values). -/
def findFloatValues (b : Bytes) : List ℚ := (findFloatsAux b).take 10

/-- First match of `[A-Za-z][A-Za-z0-9\s]{2,30}` in a string (greedy bounded
run after a leading letter; on failure the start position advances by one,
as the regex engine does). -/
def scanComponentName : List Char → Option (List Char)
  | [] => none
  | c :: rest =>
    (if isAsciiLetter c then
        let extras := (rest.takeWhile fun d =>
          isAsciiLetter d || isAsciiDigit d || isJsSpace d).take 30
        if 2 ≤ extras.length then some (c :: extras) else none
      else none) <|>
      scanComponentName rest

/-- Model of `findComponentName`. -/
def findComponentName (b : Bytes) : List Char :=
  match scanComponentName (utf8Decode b) with
  | some m => trimWS m
  | none => []

/-- Character class of `findTextContent`'s pattern `[A-Za-z0-9\s\.\,\!\?]`. -/
def isTextContentChar (c : Char) : Bool :=
  isAsciiLetter c || isAsciiDigit c || isJsSpace c || c = '.' || c = ',' ||
    c = '!' || c = '?'

/-- The control characters stripped by `findTextContent`
(`[\x00-\x1F\x7F-\x9F]`). -/
def isStrippedControl (c : Char) : Bool :=
  decide (c.toNat ≤ 0x1F) || (decide (0x7F ≤ c.toNat) && decide (c.toNat ≤ 0x9F))

/-- First match of `[A-Za-z0-9\s\.\,\!\?]{5,100}`. -/
def scanTextContent : List Char → Option (List Char)
  | [] => none
  | c :: rest =>
    (if isTextContentChar c then
        let extras := (rest.takeWhile isTextContentChar).take 99
        if 4 ≤ extras.length then some (c :: extras) else none
      else none) <|>
      scanTextContent rest

/-- Model of `findTextContent`. -/
def findTextContent (b : Bytes) : List Char :=
  let cleanText := trimWS ((utf8Decode b).filter fun c => ¬ isStrippedControl c)
  match scanTextContent cleanText with
  | some m => trimWS m
  | none => []

/-- Model of `findBooleanValue`: first `0x01` before any `0x00` scanning
forward, `false` otherwise. -/
def findBooleanValue : Bytes → Bool
  | [] => false
  | b :: rest => if b = 1 then true else if b = 0 then false else findBooleanValue rest

/-- Model of `findColorValue`.  The source's per-window filter (all four
bytes `<= 255`) is vacuously true for bytes, so the loop always returns at
its first iteration when at least 4 bytes are available. -/
def findColorValue (b : Bytes) : List Char :=
  if 4 ≤ b.length then
    '#' :: (byteToHex (b.getD 1 0) ++ byteToHex (b.getD 2 0) ++ byteToHex (b.getD 3 0))
  else "#ffffff".toList

/-- JavaScript `x || d` for numbers already known finite (`0` is falsy). -/
def jsOrQ (v d : ℚ) : ℚ := if v = 0 then d else v

/-- JavaScript truthiness of a number. -/
def jsTruthy : JSNum → Bool
  | .fin q => decide (q ≠ 0)
  | .nan => false
  | .undefined => false
  | _ => true

/-- JavaScript `x || d` on numbers. -/
def jsOrNum (v d : JSNum) : JSNum := if jsTruthy v then v else d

/-- JavaScript `x || d` on strings (the empty string is falsy). -/
def jsOrStr (v d : List Char) : List Char := if v = [] then d else v

/-- Model of `Math.round` (round half toward positive infinity). -/
def jsRound : JSNum → JSNum
  | .fin q => .fin ((⌊q + 1 / 2⌋ : ℤ) : ℚ)
  | x => x

/-- Model of `Math.max` on two numbers (`NaN` propagates). -/
def jsMax2 : JSNum → JSNum → JSNum
  | .fin a, .fin b => .fin (max a b)
  | .inf, x => if x = .nan ∨ x = .undefined then .nan else .inf
  | x, .inf => if x = .nan ∨ x = .undefined then .nan else .inf
  | .ninf, x => if x = .nan ∨ x = .undefined then .nan else x
  | x, .ninf => if x = .nan ∨ x = .undefined then .nan else x
  | _, _ => .nan

/-- Result record of `extractSliderData`. -/
structure SliderData where
  name : List Char
  value : ℚ
  minv : ℚ
  maxv : ℚ
  stepv : ℚ
deriving DecidableEq, Repr

/-- Model of `extractSliderData`: float and name scans over the ±500-byte
window around the GUID position inside the candidate record's buffer. -/
def extractSliderData (buffer : Bytes) (position : Nat) : Option SliderData :=
  let searchArea := bufSlice buffer (position - 500) (min buffer.length (position + 500))
  let floatPattern := findFloatValues searchArea
  let namePattern := findComponentName searchArea
  if 3 ≤ floatPattern.length then
    some { name := namePattern
           value := floatPattern.getD 0 0
           minv := floatPattern.getD 1 0
           maxv := floatPattern.getD 2 0
           stepv := match floatPattern.get? 3 with
             | some v => jsOrQ v 1
             | none => 1 }
  else none

/-- Result record of `extractPanelData` (always produced). -/
structure PanelData where
  name : List Char
  value : List Char
deriving DecidableEq, Repr

/-- Model of `extractPanelData`. -/
def extractPanelData (buffer : Bytes) (position : Nat) : PanelData :=
  let searchArea := bufSlice buffer (position - 500) (min buffer.length (position + 500))
  { name := findComponentName searchArea, value := findTextContent searchArea }

/-- Model of `extractToggleData`. -/
def extractToggleData (buffer : Bytes) (position : Nat) : PanelData × Bool :=
  let searchArea := bufSlice buffer (position - 500) (min buffer.length (position + 500))
  ({ name := findComponentName searchArea, value := [] }, findBooleanValue searchArea)

/-- Model of `extractColorData`. -/
def extractColorData (buffer : Bytes) (position : Nat) : PanelData :=
  let searchArea := bufSlice buffer (position - 500) (min buffer.length (position + 500))
  { name := findComponentName searchArea
    value := jsOrStr (findColorValue searchArea) "#ffffff".toList }

/-- Model of `extractPointData` / `extractVectorData` (identical bodies in
the source): three scanned floats become an x/y/z triple. -/
def extractPointData (buffer : Bytes) (position : Nat) :
    Option (List Char × ℚ × ℚ × ℚ) :=
  let searchArea := bufSlice buffer (position - 500) (min buffer.length (position + 500))
  let floatValues := findFloatValues searchArea
  let namePattern := findComponentName searchArea
  if 3 ≤ floatValues.length then
    some (namePattern, floatValues.getD 0 0, floatValues.getD 1 0, floatValues.getD 2 0)
  else none

/-- Model of `extractGeometryData`: a ±1000-byte window, a name scan, and a
per-type keyword search deciding whether an opaque `"<type>_data"` token or
`null` is the value. -/
def extractGeometryData (buffer : Bytes) (position : Nat) (markers : List String)
    (geometryType : String) : List Char × Option (List Char) :=
  let searchArea := bufSlice buffer (position - 1000) (min buffer.length (position + 1000))
  let namePattern := findComponentName searchArea
  let hasGeometry := markers.any fun m => strIncludes (utf8Decode searchArea) m.toList
  (namePattern,
    if hasGeometry then some (geometryType.toList ++ "_data".toList) else none)

/-- Model of `extractDomainData`: two scanned floats ordered into a
min/max pair. -/
def extractDomainData (buffer : Bytes) (position : Nat) :
    Option (List Char × ℚ × ℚ) :=
  let searchArea := bufSlice buffer (position - 500) (min buffer.length (position + 500))
  let floatValues := findFloatValues searchArea
  let namePattern := findComponentName searchArea
  if 2 ≤ floatValues.length then
    some (namePattern, min (floatValues.getD 0 0) (floatValues.getD 1 0),
      max (floatValues.getD 0 0) (floatValues.getD 1 0))
  else none

/-- Parameter kind tags of the `GrasshopperParameter` interface. -/
inductive GHType where
  | number
  | boolean
  | color
  | text
  | integer
  | point
  | vector
  | curve
  | surface
  | brep
  | mesh
  | domain
deriving DecidableEq, Repr

/-- Kind-dependent `value` payload of a parameter. -/
inductive GHValue where
  | num (v : JSNum)
  | boolv (b : Bool)
  | str (s : List Char)
  | point (x y z : ℚ)
  | dom (lo hi : ℚ)
  | geo (s : Option (List Char))
deriving DecidableEq, Repr

/-- Model of the `GrasshopperParameter` record (`minv`/`maxv`/`stepv` model
the optional `min`/`max`/`step` fields; `none` means the field is absent). -/
structure GHParam where
  id : List Char
  name : List Char
  ptype : GHType
  value : GHValue
  minv : Option JSNum := none
  maxv : Option JSNum := none
  stepv : Option JSNum := none
  componentType : List Char := []
deriving DecidableEq, Repr

/-- Model of `parseNumberSlider`. -/
def parseNumberSlider (cd : CompData) : Option GHParam :=
  let position := cd.position - cd.dataStart
  match extractSliderData cd.buffer position with
  | none => none
  | some sd =>
    some { id := "slider_".toList ++ natToChars cd.position
           name := jsOrStr sd.name ("Slider ".toList ++ natToChars cd.position)
           ptype := .number
           value := .num (.fin (jsOrQ sd.value 0))
           minv := some (.fin (jsOrQ sd.minv 0))
           maxv := some (.fin (jsOrQ sd.maxv 100))
           stepv := some (.fin (jsOrQ sd.stepv 1))
           componentType := "Number Slider".toList }

/-- Model of `parseTextPanel` (never `null`: the extracted record is always
truthy). -/
def parseTextPanel (cd : CompData) : Option GHParam :=
  let position := cd.position - cd.dataStart
  let pd := extractPanelData cd.buffer position
  some { id := "panel_".toList ++ natToChars cd.position
         name := jsOrStr pd.name ("Panel ".toList ++ natToChars cd.position)
         ptype := .text
         value := .str (jsOrStr pd.value [])
         componentType := "Panel".toList }

/-- Model of `parseBooleanToggle` (`value || false` is the identity on
booleans as produced by `findBooleanValue`). -/
def parseBooleanToggle (cd : CompData) : Option GHParam :=
  let position := cd.position - cd.dataStart
  let td := extractToggleData cd.buffer position
  some { id := "toggle_".toList ++ natToChars cd.position
         name := jsOrStr td.1.name ("Toggle ".toList ++ natToChars cd.position)
         ptype := .boolean
         value := .boolv td.2
         componentType := "Boolean Toggle".toList }

/-- Model of `parseColorSwatch`. -/
def parseColorSwatch (cd : CompData) : Option GHParam :=
  let position := cd.position - cd.dataStart
  let colorData := extractColorData cd.buffer position
  some { id := "color_".toList ++ natToChars cd.position
         name := jsOrStr colorData.name ("Color ".toList ++ natToChars cd.position)
         ptype := .color
         value := .str (jsOrStr colorData.value "#ffffff".toList)
         componentType := "Colour Swatch".toList }

/-- Model of `parseIntegerSlider`. -/
def parseIntegerSlider (cd : CompData) : Option GHParam :=
  let position := cd.position - cd.dataStart
  match extractSliderData cd.buffer position with
  | none => none
  | some sd =>
    some { id := "intslider_".toList ++ natToChars cd.position
           name := jsOrStr sd.name ("Integer Slider ".toList ++ natToChars cd.position)
           ptype := .integer
           value := .num (jsOrNum (jsRound (.fin sd.value)) (.fin 0))
           minv := some (jsOrNum (jsRound (.fin sd.minv)) (.fin 0))
           maxv := some (jsOrNum (jsRound (.fin sd.maxv)) (.fin 100))
           stepv := some (jsOrNum (jsMax2 (.fin 1) (jsRound (.fin sd.stepv))) (.fin 1))
           componentType := "Integer Slider".toList }

/-- Model of `parsePointParameter`. -/
def parsePointParameter (cd : CompData) : Option GHParam :=
  let position := cd.position - cd.dataStart
  match extractPointData cd.buffer position with
  | none => none
  | some (nm, x, y, z) =>
    some { id := "point_".toList ++ natToChars cd.position
           name := jsOrStr nm ("Point ".toList ++ natToChars cd.position)
           ptype := .point
           value := .point x y z
           componentType := "Point Parameter".toList }

/-- Model of `parseVectorParameter`. -/
def parseVectorParameter (cd : CompData) : Option GHParam :=
  let position := cd.position - cd.dataStart
  match extractPointData cd.buffer position with
  | none => none
  | some (nm, x, y, z) =>
    some { id := "vector_".toList ++ natToChars cd.position
           name := jsOrStr nm ("Vector ".toList ++ natToChars cd.position)
           ptype := .vector
           value := .point x y z
           componentType := "Vector Parameter".toList }

/-- Model of the four geometry placeholder parsers
(`parseCurveParameter`, `parseSurfaceParameter`, `parseBrepParameter`,
`parseMeshParameter`), which differ only in their marker lists and tags. -/
def parseGeometryParameter (idTag : String) (nameTag : String) (t : GHType)
    (markers : List String) (geometryType : String) (compType : String)
    (cd : CompData) : Option GHParam :=
  let position := cd.position - cd.dataStart
  let gd := extractGeometryData cd.buffer position markers geometryType
  some { id := idTag.toList ++ natToChars cd.position
         name := jsOrStr gd.1 (nameTag.toList ++ " ".toList ++ natToChars cd.position)
         ptype := t
         value := .geo gd.2
         componentType := compType.toList }

/-- Model of `parseDomainParameter`. -/
def parseDomainParameter (cd : CompData) : Option GHParam :=
  let position := cd.position - cd.dataStart
  match extractDomainData cd.buffer position with
  | none => none
  | some (nm, lo, hi) =>
    some { id := "domain_".toList ++ natToChars cd.position
           name := jsOrStr nm ("Domain ".toList ++ natToChars cd.position)
           ptype := .domain
           value := .dom lo hi
           componentType := "Domain Parameter".toList }

/-- The `componentTypes` table of `extractParametersFromDocument`: GUID,
display name, and parser of each supported component family. -/
def componentTypesList : List (String × String × (CompData → Option GHParam)) :=
  [("57da07bd-ecab-415d-9d86-af36d7073abc", "Number Slider", parseNumberSlider),
   ("59e0b89a-e487-49f8-bab8-b5bab16be14c", "Panel", parseTextPanel),
   ("368c0e55-7b6d-4f82-8c0e-4a8c8e0e4f4f", "Boolean Toggle", parseBooleanToggle),
   ("c552a431-af5b-46a9-a8a4-0fcbc27ef596", "Colour Swatch", parseColorSwatch),
   ("3581f42a-9592-4549-bd6b-1c0fc39d067b", "Integer Slider", parseIntegerSlider),
   ("e6c42834-5a24-4c56-b9e8-9c3f4e5a6b7c", "Point Parameter", parsePointParameter),
   ("8ec86459-bf01-4409-baee-174d0d2b13d0", "Vector Parameter", parseVectorParameter),
   ("84fa917c-1ed8-4db3-8be1-7bdc4a6495a2", "Curve Parameter",
     parseGeometryParameter "curve_" "Curve" .curve
       ["NurbsCurve", "LineCurve", "ArcCurve"] "curve" "Curve Parameter"),
   ("162056fc-4d54-4b89-8c72-1c3f4e5a6b7d", "Surface Parameter",
     parseGeometryParameter "surface_" "Surface" .surface
       ["NurbsSurface", "PlaneSurface", "CylinderSurface"] "surface" "Surface Parameter"),
   ("4f5c4b2a-3d8e-4f7a-9b2c-1d4e5f6a7b8c", "Brep Parameter",
     parseGeometryParameter "brep_" "Brep" .brep
       ["Brep", "BrepFace", "BrepEdge"] "brep" "Brep Parameter"),
   ("8bdc4a64-95a2-4c56-b9e8-9c3f4e5a6b7e", "Mesh Parameter",
     parseGeometryParameter "mesh_" "Mesh" .mesh
       ["Mesh", "MeshFace", "MeshVertex"] "mesh" "Mesh Parameter"),
   ("37261734-eec7-4f50-b6a8-b8d4a6495a3f", "Domain Parameter", parseDomainParameter)]

/-- Model of `extractParametersFromDocument`: per component family, parse
every candidate record; successful parses get the family's display name as
`componentType` and are collected in discovery order.  (The `documentData`
argument of the source is unused there and omitted here.) -/
def extractParametersFromDocument (b : Bytes) : List GHParam :=
  componentTypesList.foldl
    (fun acc ct =>
      acc ++ ((findComponentsByGuid b ct.1.toList).filterMap ct.2.2).map
        fun p => { p with componentType := ct.2.1.toList })
    []

/-- Model of `extractParametersFromBinary`: header skip, document search
(failure caught, yielding no parameters), then document extraction. -/
def extractParametersFromBinary (b : Bytes) : List GHParam :=
  let pos := skipBinaryHeader b
  match findGrasshopperDocument b pos with
  | none => []
  | some _ => extractParametersFromDocument b

/-- Line terminators excluded by the regexp `.` metacharacter. -/
def isLineTerm (c : Char) : Bool :=
  c = '\n' || c = '\r' || c.toNat = 0x2028 || c.toNat = 0x2029

/-- Every suffix at which a case-insensitive literal matches, such that the
skipped gap contains no line terminator, in increasing skip order.  This
enumerates the candidate continuations of a lazy `.*?` followed by that
literal; trying them in order via `findSome?` reproduces the backtracking
order of the regex engine. -/
def lazyCandidates (ltr : List Char) : List Char → List (List Char)
  | [] => if startsWithCI ltr [] then [([] : List Char)] else []
  | c :: rest =>
    (if startsWithCI ltr (c :: rest) then [c :: rest] else []) ++
      (if isLineTerm c then [] else lazyCandidates ltr rest)

/-- Capture of `([^"]+)"`: the maximal run of non-quote characters (at
least one) followed by the closing quote; deterministic because a shorter
run would put a non-quote character where the quote is required. -/
def capQuoted (s : List Char) : Option (List Char × List Char) :=
  let run := s.takeWhile (· ≠ '"')
  if run = [] then none
  else
    match s.drop run.length with
    | '"' :: rest => some (run, rest)
    | _ => none

/-- Tail of the item pattern after the literal `<item`:
`.*?type=".*?<kind>.*?".*?name="([^"]+)".*?value="([^"]+)"`
(case-insensitive).  Returns the suffix after the whole match. -/
def matchItemTail (kind : List Char) (afterItem : List Char) : Option (List Char) :=
  (lazyCandidates "type=\"".toList afterItem).findSome? fun s1 =>
    (lazyCandidates kind (s1.drop 6)).findSome? fun s2 =>
      (lazyCandidates "\"".toList (s2.drop kind.length)).findSome? fun s3 =>
        (lazyCandidates "name=\"".toList (s3.drop 1)).findSome? fun s4 =>
          match capQuoted (s4.drop 6) with
          | none => none
          | some (_, s5) =>
            (lazyCandidates "value=\"".toList s5).findSome? fun s6 =>
              match capQuoted (s6.drop 7) with
              | none => none
              | some (_, s7) => some s7

/-- First capture of `<ltr>([^"]+)"` anywhere in a string (the inner
re-match the source performs on each whole item match). -/
def scanInnerCapture (ltr : List Char) : Nat → List Char → Option (List Char)
  | 0, _ => none
  | fuel + 1, s =>
    match s with
    | [] => none
    | c :: rest =>
      (if startsWithCI ltr (c :: rest) then
          (capQuoted ((c :: rest).drop ltr.length)).map Prod.fst
        else none) <|>
        scanInnerCapture ltr fuel rest

/-- Global item-pattern matching: each whole match is re-searched for its
`name="…"` and `value="…"` captures, exactly as the source's `forEach`
does; matching resumes after each whole match. -/
def scanItems (kind : List Char) : Nat → List Char → List (List Char × List Char)
  | 0, _ => []
  | fuel + 1, s =>
    match s with
    | [] => []
    | c :: rest =>
      if startsWithCI "<item".toList (c :: rest) then
        match matchItemTail kind ((c :: rest).drop 5) with
        | some s7 =>
          let whole := (c :: rest).take ((c :: rest).length - s7.length)
          match scanInnerCapture "name=\"".toList whole.length whole,
              scanInnerCapture "value=\"".toList whole.length whole with
          | some nm, some vl => (nm, vl) :: scanItems kind fuel s7
          | _, _ => scanItems kind fuel s7
        | none => scanItems kind fuel rest
      else scanItems kind fuel rest

/-- Digits to a natural number. -/
def digitsToNat (ds : List Char) : Nat :=
  ds.foldl (fun a c => a * 10 + (c.toNat - 48)) 0

/-- Model of JavaScript `parseFloat`: longest numeric prefix after leading
whitespace, `NaN` when there is none.  Decimal values are modelled exactly
as rationals; the final rounding to binary64 is not modelled (no theorem in
this file evaluates a non-representable literal). -/
def jsParseFloat (s : List Char) : JSNum :=
  let t := s.dropWhile isJsSpace
  let sgn : ℚ := match t with
    | '-' :: _ => -1
    | _ => 1
  let t1 := match t with
    | '-' :: r => r
    | '+' :: r => r
    | _ => t
  if startsWith "Infinity".toList t1 then (if sgn = 1 then .inf else .ninf)
  else
    let ip := t1.takeWhile isAsciiDigit
    let t2 := t1.drop ip.length
    let fp := match t2 with
      | '.' :: r => r.takeWhile isAsciiDigit
      | _ => []
    let t3 := match t2 with
      | '.' :: r => r.dropWhile isAsciiDigit
      | _ => t2
    if ip = [] ∧ fp = [] then .nan
    else
      let mant : ℚ := (digitsToNat ip : ℚ) + (digitsToNat fp : ℚ) / (10 ^ fp.length : ℚ)
      let ex : ℤ :=
        match t3 with
        | e :: r =>
          if e = 'e' ∨ e = 'E' then
            let es : ℤ := match r with
              | '-' :: _ => -1
              | _ => 1
            let r1 := match r with
              | '-' :: rr => rr
              | '+' :: rr => rr
              | _ => r
            let ed := r1.takeWhile isAsciiDigit
            if ed = [] then 0 else es * (digitsToNat ed : ℤ)
          else 0
        | [] => 0
      .fin (sgn * mant * (10 : ℚ) ^ ex)

/-- Capture of `([^<]+)`: the maximal run of non-`<` characters, at least
one. -/
def capNonLt (s : List Char) : Option (List Char × List Char) :=
  let run := s.takeWhile (· ≠ '<')
  if run = [] then none else some (run, s.drop run.length)

/-- First match of the slider-range pattern
`<slider>\s*<min>([^<]+)</min>\s*<max>([^<]+)</max>\s*<step>([^<]+)</step>`
(case-insensitive), returning the three captures. -/
def scanSliderTriple : Nat → List Char → Option (List Char × List Char × List Char)
  | 0, _ => none
  | _ + 1, [] => none
  | fuel + 1, c :: rest =>
    (if startsWithCI "<slider>".toList (c :: rest) then
        let s1 := ((c :: rest).drop 8).dropWhile isJsSpace
        if startsWithCI "<min>".toList s1 then
          match capNonLt (s1.drop 5) with
          | none => none
          | some (mn, s2) =>
            if startsWithCI "</min>".toList s2 then
              let s3 := (s2.drop 6).dropWhile isJsSpace
              if startsWithCI "<max>".toList s3 then
                match capNonLt (s3.drop 5) with
                | none => none
                | some (mx, s4) =>
                  if startsWithCI "</max>".toList s4 then
                    let s5 := (s4.drop 6).dropWhile isJsSpace
                    if startsWithCI "<step>".toList s5 then
                      match capNonLt (s5.drop 6) with
                      | none => none
                      | some (st, s6) =>
                        if startsWithCI "</step>".toList s6 then some (mn, mx, st)
                        else none
                    else none
                  else none
              else none
            else none
        else none
      else none) <|>
      scanSliderTriple fuel rest

/-- The number section of `extractParametersFromText`: one parameter per
item match, with a range read from the (file-wide) slider triple when one
exists and defaulted otherwise. -/
def textNumberParams (fileContent : List Char) : List GHParam :=
  let itemMatches := scanItems "Number".toList (fileContent.length + 1) fileContent
  let triple := scanSliderTriple (fileContent.length + 1) fileContent
  (List.range itemMatches.length).zip itemMatches |>.map fun (idx, nm, vl) =>
    let value := jsOrNum (jsParseFloat vl) (.fin 0)
    { id := "number_".toList ++ natToChars idx
      name := nm
      ptype := .number
      value := .num value
      minv := some (match triple with
        | some (a, _, _) => jsParseFloat a
        | none => .fin 0)
      maxv := some (match triple with
        | some (_, b, _) => jsParseFloat b
        | none => jsMul value (.fin 2))
      stepv := some (match triple with
        | some (_, _, c) => jsParseFloat c
        | none => .fin 1)
      componentType := "NumberSlider".toList }

/-- The boolean section of `extractParametersFromText`. -/
def textBooleanParams (fileContent : List Char) : List GHParam :=
  let itemMatches := scanItems "Boolean".toList (fileContent.length + 1) fileContent
  (List.range itemMatches.length).zip itemMatches |>.map fun (idx, nm, vl) =>
    { id := "boolean_".toList ++ natToChars idx
      name := nm
      ptype := .boolean
      value := .boolv (lowerStr vl = "true".toList)
      componentType := "BooleanToggle".toList }

/-- The text section of `extractParametersFromText`. -/
def textTextParams (fileContent : List Char) : List GHParam :=
  let itemMatches := scanItems "Text".toList (fileContent.length + 1) fileContent
  (List.range itemMatches.length).zip itemMatches |>.map fun (idx, nm, vl) =>
    { id := "text_".toList ++ natToChars idx
      name := nm
      ptype := .text
      value := .str vl
      componentType := "TextPanel".toList }

/-- The color section of `extractParametersFromText`. -/
def textColorParams (fileContent : List Char) : List GHParam :=
  let itemMatches := scanItems "Color".toList (fileContent.length + 1) fileContent
  (List.range itemMatches.length).zip itemMatches |>.map fun (idx, nm, vl) =>
    { id := "color_".toList ++ natToChars idx
      name := nm
      ptype := .color
      value := .str vl
      componentType := "ColourSwatch".toList }

/-- Non-overlapping global occurrence count of a pattern in a string. -/
def countOccurrences (pat : List Char) : Nat → List Char → Nat
  | 0, _ => 0
  | fuel + 1, s =>
    match s with
    | [] => 0
    | c :: rest =>
      if startsWith pat (c :: rest) then
        1 + countOccurrences pat fuel ((c :: rest).drop pat.length)
      else countOccurrences pat fuel rest

/-- Model of `extractFromBinaryPatterns`: fixed hex signatures (the hex
encodings of `NumberSlider` and `BooleanToggle`) searched in the hex
rendering of the buffer, synthesizing placeholder parameters. -/
def extractFromBinaryPatterns (b : Bytes) : List GHParam :=
  let hex := hexEncode b
  let numberCount := countOccurrences "4e756d626572536c69646572".toList
    (hex.length + 1) hex
  let booleanCount := countOccurrences "426f6f6c65616e546f67676c65".toList
    (hex.length + 1) hex
  ((List.range numberCount).map fun idx =>
    { id := "binary_number_".toList ++ natToChars idx
      name := "Parameter ".toList ++ natToChars (idx + 1)
      ptype := GHType.number
      value := .num (.fin 50)
      minv := some (.fin 0)
      maxv := some (.fin 100)
      stepv := some (.fin 1)
      componentType := "NumberSlider".toList }) ++
    ((List.range booleanCount).map fun idx =>
      { id := "binary_boolean_".toList ++ natToChars idx
        name := "Toggle ".toList ++ natToChars (idx + 1)
        ptype := GHType.boolean
        value := .boolv true
        componentType := "BooleanToggle".toList })

/-- Model of `extractParametersFromText`: the four tag sections, then the
binary-pattern fallback, then failure (`none` models the thrown
`NoParametersFound`). -/
def extractParametersFromText (b : Bytes) : Option (List GHParam) :=
  let fileContent := utf8Decode (b.take (min b.length 10000))
  let ps := textNumberParams fileContent ++ textBooleanParams fileContent ++
    textTextParams fileContent ++ textColorParams fileContent
  let ps2 := if ps = [] then ps ++ extractFromBinaryPatterns b else ps
  if ps2 = [] then none else some ps2

/-- Model of `extractRealParameters`: binary extraction first, text
fallback when it yields nothing. -/
def extractRealParameters (b : Bytes) : Option (List GHParam) :=
  let bp := extractParametersFromBinary b
  if bp ≠ [] then some bp else extractParametersFromText b

/-- Parameter list produced by `parseDefinition` (`none` models a parse
failure: validation failure or no parameters found, both of which reach the
throwing `parseDefinitionSimple` fallback).  Metadata fields of the
returned definition are not modelled. -/
def parseDefinitionParameters (b : Bytes) : Option (List GHParam) :=
  if validateGrasshopperFile b then extractRealParameters b else none

/-- The parameters of a parse result whose kind tag is `number`. -/
def numberParamsOf (r : Option (List GHParam)) : List GHParam :=
  (r.getD []).filter fun p => p.ptype = .number

/-- Demonstration buffer for the text-ratio check: 200 bytes, none of them
printable (one `0x00` header byte, the rest `0x01`), so its printable
ratio is 0. -/
def textRatioDemoBuffer : Bytes := 0 :: List.replicate 199 1

/-- Scenario buffer for the minimal-slider-file property: the `0x00`
serialization marker at offset 0, exactly one textual encoding of the
Number-Slider GUID at offset 40, the little-endian floats 50.0, 0.0, 100.0
immediately after the GUID at offsets 76/80/84 (36 bytes after the GUID
start), a `"GH_Document"` token at offset 540, and `0xFF` padding
elsewhere. -/
def sliderScenarioBuffer : Bytes :=
  [0x00] ++ List.replicate 39 0xFF ++
    bytesOf "57da07bd-ecab-415d-9d86-af36d7073abc" ++
    [0, 0, 72, 66] ++ [0, 0, 0, 0] ++ [0, 0, 200, 66] ++
    List.replicate 452 0xFF ++ bytesOf "GH_Document" ++ List.replicate 9 0xFF

/-- Variant of the slider scenario in which the three floats are placed at
the very start of the ±500-byte search window around the GUID (offsets
40/44/48, GUID at offset 540, window `[40, 640)`), 4-byte-aligned relative
to the window, and preceded by no other in-range float read. -/
def sliderScenarioAlignedBuffer : Bytes :=
  [0x00, 0xFF] ++ bytesOf "GH_Document" ++ List.replicate 27 0xFF ++
    [0, 0, 72, 66] ++ [0, 0, 0, 0] ++ [0, 0, 200, 66] ++
    List.replicate 488 0xFF ++
    bytesOf "57da07bd-ecab-415d-9d86-af36d7073abc" ++ List.replicate 64 0xFF

end GrasshopperParser

end GHDef

namespace GHDef

/-! Embedding of the mesh wire decoder and the definition writer of
`src/lib/rhino-compute.ts` (class `RhinoComputeService`). -/

namespace RhinoCompute

/-- One branch entry of an `InnerTree`: the `type`/`data` record. -/
structure TreeItem where
  itemType : List Char
  data : List Char
deriving DecidableEq, Repr

/-- One entry of the response envelope's `values` array.  An empty
`paramName` models both a missing and an empty `ParamName` (both falsy in
the source's guard). -/
structure OutputParam where
  paramName : List Char
  innerTree : List (List Char × List TreeItem)
deriving DecidableEq, Repr

/-- The mutable geometry accumulators (`vertices`, `faces`, `normals`)
threaded through the decode loop; also the shape of the returned
`RhinoComputeGeometry`.  Faces hold plain rationals: every writer pushes
either a `readUInt32LE` natural or a JSON number, never an IEEE special
value. -/
structure GeoState where
  vertices : List JSNum
  faces : List ℚ
  normals : List JSNum
deriving DecidableEq, Repr

/-- Decode error tags, one per distinct `throw` site reachable from
`parseRhinoComputeResponse` (messages are not modelled). -/
inductive RCErr where
  | noValidGeometryData
  | bufferTooSmall
  | unrealisticMeshSize
  | noMeshDataExtracted
  | noGeometryFound
  | invalidGeometry
  | rangeError
deriving DecidableEq, Repr

/-- Model of `isGeometryOutput`: the lowercased parameter name contains one
of nine geometry keywords. -/
def isGeometryOutput (paramName : List Char) : Bool :=
  let lowerParamName := lowerStr paramName
  ["mesh", "brep", "surface", "geometry", "output", "result", "solid", "curve",
      "point"].any
    fun k => strIncludes lowerParamName k.toList

/-- Model of `isRhinoMeshFormat` (4-byte magic `MESH`). -/
def isRhinoMeshFormat (buffer : Bytes) : Bool :=
  decide (16 ≤ buffer.length) && decide (readUInt32LE buffer 0 = 0x4D455348)

/-- Model of `isOpenNURBSFormat` (4-byte magic `ONRB`). -/
def isOpenNURBSFormat (buffer : Bytes) : Bool :=
  decide (8 ≤ buffer.length) && decide (readUInt32LE buffer 0 = 0x4F4E5242)

/-- Vertex-reading loop shared by the three binary mesh layouts: up to
`count` float triples while 12 bytes remain, returning the grown vertex
list and the final offset. -/
def readVertsLoop (buffer : Bytes) : Nat → Nat → List JSNum → List JSNum × Nat
  | 0, offset, acc => (acc, offset)
  | n + 1, offset, acc =>
    if offset + 12 ≤ buffer.length then
      readVertsLoop buffer n (offset + 12)
        (acc ++ [readFloatLE buffer offset, readFloatLE buffer (offset + 4),
          readFloatLE buffer (offset + 8)])
    else (acc, offset)

/-- Face-reading loop of `parseRhinoMeshFormat`: 16-byte quad records,
split into one or two triangles by `d != c`. -/
def readQuadFacesLoop (buffer : Bytes) : Nat → Nat → List ℚ → List ℚ × Nat
  | 0, offset, acc => (acc, offset)
  | n + 1, offset, acc =>
    if offset + 16 ≤ buffer.length then
      let a := readUInt32LE buffer offset
      let b := readUInt32LE buffer (offset + 4)
      let c := readUInt32LE buffer (offset + 8)
      let d := readUInt32LE buffer (offset + 12)
      readQuadFacesLoop buffer n (offset + 16)
        (acc ++ [(a : ℚ), (b : ℚ), (c : ℚ)] ++
          (if d ≠ c then [(a : ℚ), (c : ℚ), (d : ℚ)] else []))
    else (acc, offset)

/-- Face-reading loop of the OpenNURBS and simple layouts: 12-byte triangle
records. -/
def readTriFacesLoop (buffer : Bytes) : Nat → Nat → List ℚ → List ℚ × Nat
  | 0, offset, acc => (acc, offset)
  | n + 1, offset, acc =>
    if offset + 12 ≤ buffer.length then
      readTriFacesLoop buffer n (offset + 12)
        (acc ++ [(readUInt32LE buffer offset : ℚ),
          (readUInt32LE buffer (offset + 4) : ℚ),
          (readUInt32LE buffer (offset + 8) : ℚ)])
    else (acc, offset)

/-- Model of `parseRhinoMeshFormat`: signature and version skipped, then
vertex/face counts and their records. -/
def parseRhinoMeshFormat (buffer : Bytes) (st : GeoState) : GeoState :=
  let vertexCount := readUInt32LE buffer 8
  let faceCount := readUInt32LE buffer 12
  let vo := readVertsLoop buffer vertexCount 16 st.vertices
  let fo := readQuadFacesLoop buffer faceCount vo.2 st.faces
  { st with vertices := vo.1, faces := fo.1 }

/-- Model of `parseOpenNURBSFormat`: 8-byte header skipped, then counts and
12-byte records.  The magic check admits buffers of 8 to 15 bytes, on which
the source's `readUInt32LE(8)` or `readUInt32LE(12)` throws `RangeError`
before anything is pushed; the guard models that throw. -/
def parseOpenNURBSFormat (buffer : Bytes) (st : GeoState) : Except RCErr GeoState :=
  if buffer.length < 16 then .error .rangeError
  else
    let vertexCount := readUInt32LE buffer 8
    let faceCount := readUInt32LE buffer 12
    let vo := readVertsLoop buffer vertexCount 16 st.vertices
    let fo := readTriFacesLoop buffer faceCount vo.2 st.faces
    .ok { st with vertices := vo.1, faces := fo.1 }

/-- Model of `parseSimpleMeshFormat`: counts at offsets 0 and 4, rejected
above 1 000 000 (before any mutation), then tightly packed records. -/
def parseSimpleMeshFormat (buffer : Bytes) (st : GeoState) : Except RCErr GeoState :=
  let vertexCount := readUInt32LE buffer 0
  let faceCount := readUInt32LE buffer 4
  if 1000000 < vertexCount ∨ 1000000 < faceCount then .error .unrealisticMeshSize
  else
    let vo := readVertsLoop buffer vertexCount 8 st.vertices
    let fo := readTriFacesLoop buffer faceCount vo.2 st.faces
    .ok { st with vertices := vo.1, faces := fo.1 }

/-- JavaScript read `vertices[idx]` at a computed numeric index: the
element for an in-range integer index, `undefined` otherwise. -/
def vnGet (l : List JSNum) (idx : JSNum) : JSNum :=
  match idx with
  | .fin q =>
    if q.den = 1 ∧ 0 ≤ q.num ∧ q.num < l.length then l.getD q.num.toNat .undefined
    else .undefined
  | _ => .undefined

/-- The array index denoted by a JavaScript number, if any. -/
def natIndexOpt (idx : JSNum) : Option Nat :=
  match idx with
  | .fin q => if q.den = 1 ∧ 0 ≤ q.num then some q.num.toNat else none
  | _ => none

/-- JavaScript `l[idx] += v` on an array: in-range writes update (reading a
hole as `undefined`), beyond-length writes extend the array with holes,
and non-index property writes are invisible to the array. -/
def vnAddAt (l : List JSNum) (idx : JSNum) (v : JSNum) : List JSNum :=
  match natIndexOpt idx with
  | none => l
  | some n =>
    if n < l.length then l.set n (jsAdd (l.getD n .undefined) v)
    else l ++ List.replicate (n - l.length) .undefined ++ [jsAdd .undefined v]

/-- One iteration of the face loop of `generateNormals`: face normal from
the cross product of the two edge vectors, normalized when its length is
positive, then accumulated into the three vertices' running sums. -/
def accumOneFace (s : ℚ → ℚ) (vertices : List JSNum) (ia ib ic : JSNum)
    (vn : List JSNum) : List JSNum :=
  let i1 := jsMul ia (.fin 3)
  let i2 := jsMul ib (.fin 3)
  let i3 := jsMul ic (.fin 3)
  let v1x := vnGet vertices i1
  let v1y := vnGet vertices (jsAdd i1 (.fin 1))
  let v1z := vnGet vertices (jsAdd i1 (.fin 2))
  let v2x := vnGet vertices i2
  let v2y := vnGet vertices (jsAdd i2 (.fin 1))
  let v2z := vnGet vertices (jsAdd i2 (.fin 2))
  let v3x := vnGet vertices i3
  let v3y := vnGet vertices (jsAdd i3 (.fin 1))
  let v3z := vnGet vertices (jsAdd i3 (.fin 2))
  let e1x := jsSub v2x v1x
  let e1y := jsSub v2y v1y
  let e1z := jsSub v2z v1z
  let e2x := jsSub v3x v1x
  let e2y := jsSub v3y v1y
  let e2z := jsSub v3z v1z
  let nx := jsSub (jsMul e1y e2z) (jsMul e1z e2y)
  let ny := jsSub (jsMul e1z e2x) (jsMul e1x e2z)
  let nz := jsSub (jsMul e1x e2y) (jsMul e1y e2x)
  let len := jsSqrt s (jsAdd (jsAdd (jsMul nx nx) (jsMul ny ny)) (jsMul nz nz))
  let ux := if jsLt (.fin 0) len then jsDiv nx len else nx
  let uy := if jsLt (.fin 0) len then jsDiv ny len else ny
  let uz := if jsLt (.fin 0) len then jsDiv nz len else nz
  let vn := vnAddAt vn i1 ux
  let vn := vnAddAt vn (jsAdd i1 (.fin 1)) uy
  let vn := vnAddAt vn (jsAdd i1 (.fin 2)) uz
  let vn := vnAddAt vn i2 ux
  let vn := vnAddAt vn (jsAdd i2 (.fin 1)) uy
  let vn := vnAddAt vn (jsAdd i2 (.fin 2)) uz
  let vn := vnAddAt vn i3 ux
  let vn := vnAddAt vn (jsAdd i3 (.fin 1)) uy
  let vn := vnAddAt vn (jsAdd i3 (.fin 2)) uz
  vn

/-- The `i += 3` face loop of `generateNormals`; a trailing partial triple
is processed with `undefined` in the missing slots, exactly as the `i + 1`
and `i + 2` reads run past the array. -/
def accumFaces (s : ℚ → ℚ) (vertices : List JSNum) : List ℚ → List JSNum → List JSNum
  | [], vn => vn
  | [a], vn => accumOneFace s vertices (.fin a) .undefined .undefined vn
  | [a, b], vn => accumOneFace s vertices (.fin a) (.fin b) .undefined vn
  | a :: b :: c :: rest, vn =>
    accumFaces s vertices rest (accumOneFace s vertices (.fin a) (.fin b) (.fin c) vn)

/-- The per-vertex normal sums of `generateNormals` immediately before the
final normalization pass (its first loop applied to the freshly zeroed
accumulator array). -/
def accumulatedVertexNormals (s : ℚ → ℚ) (vertices : List JSNum)
    (faces : List ℚ) : List JSNum :=
  accumFaces s vertices faces (List.replicate (vertices.length / 3 * 3) (.fin 0))

/-- The final normalization pass of `generateNormals` (`i += 3` over the
accumulator; a zero or `NaN` length skips the division). -/
def normalizeChunks (s : ℚ → ℚ) : List JSNum → List JSNum
  | x :: y :: z :: rest =>
    let len := jsSqrt s (jsAdd (jsAdd (jsMul x x) (jsMul y y)) (jsMul z z))
    (if jsLt (.fin 0) len then [jsDiv x len, jsDiv y len, jsDiv z len]
      else [x, y, z]) ++ normalizeChunks s rest
  | l => l

/-- Model of `generateNormals`: accumulate unit face normals into each
face's three vertices, normalize the per-vertex sums, and append the
result to the `normals` accumulator. -/
def generateNormals (s : ℚ → ℚ) (vertices : List JSNum) (faces : List ℚ)
    (normals : List JSNum) : List JSNum :=
  normals ++ normalizeChunks s (accumulatedVertexNormals s vertices faces)

/-- Model of `parseMeshData`.  Node's lenient base64 decoder never throws,
so the JSON fallback inside the source's `catch` is unreachable from here
(see `parseMeshFromJSON` for its standalone model).  A failing parse may
leave partial pushes behind, so the error case carries the (possibly
mutated) state. -/
def parseMeshData (s : ℚ → ℚ) (meshData : List Char) (st : GeoState) :
    Option RCErr × GeoState :=
  let buffer := base64Decode meshData
  if buffer.length < 8 then (some .bufferTooSmall, st)
  else
    let step : Except RCErr GeoState :=
      if isRhinoMeshFormat buffer then .ok (parseRhinoMeshFormat buffer st)
      else if isOpenNURBSFormat buffer then parseOpenNURBSFormat buffer st
      else parseSimpleMeshFormat buffer st
    match step with
    | .error e => (some e, st)
    | .ok st' =>
      if 0 < st'.vertices.length ∧ 0 < st'.faces.length then
        (none, { st' with normals := generateNormals s st'.vertices st'.faces st'.normals })
      else (some .noMeshDataExtracted, st')

/-- Model of `extractGeometryFromOutput`: data is read exclusively from
`InnerTree["{0}"][0].data`.  (The source's `else if` repeats the identical
condition, so its BRep branch is unreachable and not modelled.) -/
def extractGeometryFromOutput (s : ℚ → ℚ) (output : OutputParam) (st : GeoState) :
    Option RCErr × GeoState :=
  match output.innerTree.findSome?
      (fun kv => if kv.1 = "{0}".toList then some kv.2 else none) with
  | some (item :: _) => parseMeshData s item.data st
  | _ => (some .noValidGeometryData, st)

/-- The entry loop of `parseRhinoComputeResponse`: invalid names are
skipped, geometry-keyword entries are extracted with per-entry errors
swallowed, and a success sets the `geometryFound` flag. -/
def processOutputs (s : ℚ → ℚ) : List OutputParam → GeoState → Bool → GeoState × Bool
  | [], st, found => (st, found)
  | o :: rest, st, found =>
    if o.paramName = [] then processOutputs s rest st found
    else if isGeometryOutput o.paramName then
      match extractGeometryFromOutput s o st with
      | (none, st') => processOutputs s rest st' true
      | (some _, st') => processOutputs s rest st' found
    else processOutputs s rest st found

/-- Model of `validateGeometry`: any violation is the fatal
`invalidGeometry` (the source throws on the first violating check; only
pass/fail and the tag are modelled). -/
def validateGeometry (vertices : List JSNum) (faces : List ℚ) : Option RCErr :=
  if vertices.length = 0 then some .invalidGeometry
  else if vertices.length % 3 ≠ 0 then some .invalidGeometry
  else if faces.length = 0 then some .invalidGeometry
  else if faces.length % 3 ≠ 0 then some .invalidGeometry
  else
    if ¬ (faces.all fun q =>
        !(decide (q < 0) || decide (((vertices.length / 3 : ℕ) : ℚ) ≤ q))) then
      some .invalidGeometry
    else if ¬ (vertices.all JSNum.isFinite) then some .invalidGeometry
    else none

/-- Model of `parseRhinoComputeResponse` on an envelope's `values` list
(the shape check on the wrapper object is outside this model): process all
entries, fail with `noGeometryFound` when nothing was extracted, validate,
and return the accumulated geometry. -/
def parseRhinoComputeResponse (s : ℚ → ℚ) (values : List OutputParam) :
    Except RCErr GeoState :=
  let r := processOutputs s values ⟨[], [], []⟩ false
  if r.2 = false ∨ r.1.vertices.length = 0 then .error .noGeometryFound
  else
    match validateGeometry r.1.vertices r.1.faces with
    | some e => .error e
    | none => .ok r.1

/-- JSON vertex/normal object with optional `X`/`Y`/`Z` fields. -/
structure JVec where
  X : Option ℚ
  Y : Option ℚ
  Z : Option ℚ
deriving DecidableEq, Repr

/-- JSON face object with optional `A`/`B`/`C`/`D` fields. -/
structure JFace where
  A : Option ℚ
  B : Option ℚ
  C : Option ℚ
  D : Option ℚ
deriving DecidableEq, Repr

/-- JSON mesh object shape accepted by `parseMeshFromJSON`. -/
structure JMesh where
  Vertices : Option (List JVec)
  Faces : Option (List JFace)
  Normals : Option (List JVec)
deriving DecidableEq, Repr

/-- Model of `parseMeshFromJSON`: vertices with all three coordinates
defined are pushed; faces with `A`/`B`/`C` defined push one triangle, plus
a second `A, C, D` triangle when `D` is defined and differs from `C`;
normals are copied like vertices, with no length validation. -/
def parseMeshFromJSON (mo : JMesh) (st : GeoState) : GeoState :=
  let vs := match mo.Vertices with
    | some l =>
      l.foldl (fun acc v =>
        match v.X, v.Y, v.Z with
        | some x, some y, some z => acc ++ [JSNum.fin x, .fin y, .fin z]
        | _, _, _ => acc) st.vertices
    | none => st.vertices
  let fs := match mo.Faces with
    | some l =>
      l.foldl (fun acc f =>
        match f.A, f.B, f.C with
        | some a, some b, some c =>
          acc ++ [a, b, c] ++
            (match f.D with
              | some d => if d ≠ c then [a, c, d] else []
              | none => [])
        | _, _, _ => acc) st.faces
    | none => st.faces
  let ns := match mo.Normals with
    | some l =>
      l.foldl (fun acc v =>
        match v.X, v.Y, v.Z with
        | some x, some y, some z => acc ++ [JSNum.fin x, .fin y, .fin z]
        | _, _, _ => acc) st.normals
    | none => st.normals
  { vertices := vs, faces := fs, normals := ns }

/-- An edited parameter handed to `generateModifiedFile`: its name and the
string rendering of its value (as interpolated by the template literal;
the provenance blob's JSON rendering is modelled as the quoted escaped
string, exact for string-valued parameters). -/
structure RCParam where
  name : List Char
  value : List Char
deriving DecidableEq, Repr

/-- JSON string escaping for the provenance blob (quote, backslash, and
control characters; the latter never occur in the evaluated inputs). -/
def jsonEscape (s : List Char) : List Char :=
  s.flatMap fun c =>
    if c = '"' then ['\\', '"']
    else if c = '\\' then ['\\', '\\']
    else if c.toNat < 0x20 then
      ['\\', 'u', '0', '0', Nat.digitChar (c.toNat / 16), Nat.digitChar (c.toNat % 16)]
    else [c]

/-- The `JSON.stringify(metadata)` blob of `generateModifiedFile`, with the
timestamp of `new Date().toISOString()` abstracted as an argument. -/
def metadataJson (ts : List Char) (ps : List RCParam) : List Char :=
  "\x7b\"modifiedBy\":\"Grasshopper Viewer\",\"modifiedAt\":\"".toList ++
    jsonEscape ts ++ "\",\"parameters\":[".toList ++
    List.intercalate ",".toList
      (ps.map fun p =>
        "\x7b\"name\":\"".toList ++ jsonEscape p.name ++ "\",\"value\":\"".toList ++
          jsonEscape p.value ++ "\"\x7d".toList) ++
    "]\x7d".toList

/-- The appended provenance comment of `generateModifiedFile`. -/
def metadataComment (ts : List Char) (ps : List RCParam) : List Char :=
  "\n<!-- Modified by Grasshopper Viewer: ".toList ++ metadataJson ts ps ++
    " -->".toList

/-- Try the trailing `value="[^"]*"` of the replacement pattern with the
greedy `[^>]*` having consumed `j` characters; the quoted run is
deterministic (maximal non-quote run, then the closing quote). -/
def tryValueAt (s1 : List Char) (j : Nat) : Option (List Char) :=
  let t := s1.drop j
  if GrasshopperParser.startsWithCI "value=\"".toList t then
    let t2 := t.drop 7
    let run := t2.takeWhile (· ≠ '"')
    match t2.drop run.length with
    | '"' :: rest => some rest
    | _ => none
  else none

/-- Greedy backtracking of `[^>]*value="[^"]*"`: longest gap first. -/
def backtrackValue (s1 : List Char) : Nat → Option (List Char)
  | 0 => tryValueAt s1 0
  | j + 1 => tryValueAt s1 (j + 1) <|> backtrackValue s1 j

/-- Does `name="<pname>"[^>]*value="[^"]*"` match (case-insensitively) at
the head of `s`?  Returns the suffix after the match.  The parameter name
is matched literally (regex metacharacters inside a name are not
modelled). -/
def matchParamPattern (pname : List Char) (s : List Char) : Option (List Char) :=
  let lit := "name=\"".toList ++ pname ++ "\"".toList
  if GrasshopperParser.startsWithCI lit s then
    let s1 := s.drop lit.length
    backtrackValue s1 (s1.takeWhile (· ≠ '>')).length
  else none

/-- Global regex replacement of one parameter's pattern, scanning the
original text left to right and resuming after each match. -/
def replaceScan (pname newText : List Char) : Nat → List Char → List Char
  | 0, s => s
  | fuel + 1, s =>
    match s with
    | [] => []
    | c :: rest =>
      match matchParamPattern pname (c :: rest) with
      | some after => newText ++ replaceScan pname newText fuel after
      | none => c :: replaceScan pname newText fuel rest

/-- One iteration of the `parameters.forEach` of `generateModifiedFile`:
replace every `name="<name>"[^>]*value="[^"]*"` with
`name="<name>" value="<value>"`. -/
def replaceParamValues (pname pvalue content : List Char) : List Char :=
  replaceScan pname
    ("name=\"".toList ++ pname ++ "\" value=\"".toList ++ pvalue ++ "\"".toList)
    (content.length + 1) content

/-- Model of `generateModifiedFile`: the first 10 000 bytes are decoded as
UTF-8, patched per parameter, re-encoded, and the provenance comment is
appended.  The bytes beyond the first 10 000 do not appear in the output
(the source's full copy `modifiedBuffer` is created but never used). -/
def generateModifiedFile (ts : List Char) (definitionBuffer : Bytes)
    (parameters : List RCParam) : Bytes :=
  let fileContent :=
    utf8Decode (definitionBuffer.take (min definitionBuffer.length 10000))
  let modifiedContent :=
    parameters.foldl (fun content p => replaceParamValues p.name p.value content)
      fileContent
  utf8Encode modifiedContent ++ utf8Encode (metadataComment ts parameters)

/-- Modelled from the spec: the encode output that §4.6 requires — the
patched text window, then the unmodified remainder of the original buffer
beyond the first 10 000 bytes, then the provenance comment at the very
end. -/
def specPreservingOutput (ts : List Char) (definitionBuffer : Bytes)
    (parameters : List RCParam) : Bytes :=
  let fileContent :=
    utf8Decode (definitionBuffer.take (min definitionBuffer.length 10000))
  let modifiedContent :=
    parameters.foldl (fun content p => replaceParamValues p.name p.value content)
      fileContent
  utf8Encode modifiedContent ++ definitionBuffer.drop 10000 ++
    utf8Encode (metadataComment ts parameters)

/-- Base64 payload of a 57-byte simple-format mesh buffer: vertex count 3,
face count 1, vertices (0,0,0), (1,0,0), (0,1,0), face (0,1,2), one byte
of padding (so the base64 text needs no `=` padding). -/
def meshDataB64 : List Char :=
  "AwAAAAEAAAAAAAAAAAAAAAAAAAAAAIA/AAAAAAAAAAAAAAAAAACAPwAAAAAAAAAAAQAAAAIAAAAA".toList

/-- A well-formed geometry output entry carrying `meshDataB64` under the
`InnerTree` branch key `"{0}"`. -/
def triangleEntry : OutputParam :=
  { paramName := "Mesh".toList
    innerTree := [("{0}".toList,
      [{ itemType := "Rhino.Geometry.Mesh".toList, data := meshDataB64 }])] }

/-- A geometry-named output entry whose `InnerTree` holds the same valid
geometry data, but under branch key `"0"` instead of `"{0}"`. -/
def wrongKeyEntry : OutputParam :=
  { paramName := "MeshB".toList
    innerTree := [("0".toList,
      [{ itemType := "Rhino.Geometry.Mesh".toList, data := meshDataB64 }])] }

/-- The decoded mesh of a single `triangleEntry`: one unit right triangle
in the XY-plane with all vertex normals (0,0,1). -/
def triangleMesh : GeoState :=
  { vertices := [.fin 0, .fin 0, .fin 0, .fin 1, .fin 0, .fin 0, .fin 0, .fin 1, .fin 0]
    faces := [0, 1, 2]
    normals := [.fin 0, .fin 0, .fin 1, .fin 0, .fin 0, .fin 1, .fin 0, .fin 0, .fin 1] }

/-- The decoded mesh of two `triangleEntry` entries processed in sequence:
both entries' vertices and faces are concatenated, and the per-entry
normal-generation passes append 9 + 18 = 27 normal components. -/
def doubleTriangleMesh : GeoState :=
  { vertices := [.fin 0, .fin 0, .fin 0, .fin 1, .fin 0, .fin 0, .fin 0, .fin 1, .fin 0,
      .fin 0, .fin 0, .fin 0, .fin 1, .fin 0, .fin 0, .fin 0, .fin 1, .fin 0]
    faces := [0, 1, 2, 0, 1, 2]
    normals := [.fin 0, .fin 0, .fin 1, .fin 0, .fin 0, .fin 1, .fin 0, .fin 0, .fin 1,
      .fin 0, .fin 0, .fin 1, .fin 0, .fin 0, .fin 1, .fin 0, .fin 0, .fin 1,
      .fin 0, .fin 0, .fin 0, .fin 0, .fin 0, .fin 0, .fin 0, .fin 0, .fin 0] }

/-- The branch list stored under the exact `InnerTree` key `"{0}"`. -/
def innerTreeZero (o : OutputParam) : Option (List TreeItem) :=
  o.innerTree.findSome? fun kv => if kv.1 = "{0}".toList then some kv.2 else none

/-- Demonstration buffer for the definition writer: 10 000 `A` bytes
followed by one `B` byte beyond the text window. -/
def writerDemoBuffer : Bytes := List.replicate 10000 65 ++ [66]

/-- A fixed timestamp standing in for `new Date().toISOString()`. -/
def writerDemoTimestamp : List Char := "2024-01-01T00:00:00.000Z".toList

/-! Spec-level definitions for the vertex-normal claims.  The first group
mirrors the accumulation arithmetic over plain rationals; the two sum
definitions are modelled from the claim's words for comparison with the
code's accumulator. -/

/-- The flat face-index list of a list of face triples. -/
def flattenTriples (T : List (Nat × Nat × Nat)) : List ℚ :=
  T.flatMap fun t => [(t.1 : ℚ), (t.2.1 : ℚ), (t.2.2 : ℚ)]

/-- Coordinate triple of vertex `v` in a flat rational coordinate list. -/
def vertTriple (V : List ℚ) (v : Nat) : ℚ × ℚ × ℚ :=
  (V.getD (v * 3) 0, V.getD (v * 3 + 1) 0, V.getD (v * 3 + 2) 0)

/-- Unnormalized face normal: the cross product of the face's two edge
vectors, with the source's operand order. -/
def faceCross (V : List ℚ) (a b c : Nat) : ℚ × ℚ × ℚ :=
  let v1 := vertTriple V a
  let v2 := vertTriple V b
  let v3 := vertTriple V c
  let e1x := v2.1 - v1.1
  let e1y := v2.2.1 - v1.2.1
  let e1z := v2.2.2 - v1.2.2
  let e2x := v3.1 - v1.1
  let e2y := v3.2.1 - v1.2.1
  let e2z := v3.2.2 - v1.2.2
  (e1y * e2z - e1z * e2y, e1z * e2x - e1x * e2z, e1x * e2y - e1y * e2x)

/-- The face normal exactly as the code accumulates it: the cross product
divided by `s` of its squared length when that is positive (`s` models
`Math.sqrt`, so `s` of the squared length is the magnitude). -/
def unitFaceNormal (s : ℚ → ℚ) (V : List ℚ) (a b c : Nat) : ℚ × ℚ × ℚ :=
  let cr := faceCross V a b c
  let len := s (cr.1 * cr.1 + cr.2.1 * cr.2.1 + cr.2.2 * cr.2.2)
  if 0 < len then (cr.1 / len, cr.2.1 / len, cr.2.2 / len) else cr

/-- Multiplicity of vertex `v` among the three corners of face `t`. -/
def vertMult (v : Nat) (t : Nat × Nat × Nat) : ℚ :=
  (if t.1 = v then 1 else 0) + (if t.2.1 = v then 1 else 0) +
    (if t.2.2 = v then 1 else 0)

/-- Modelled from the claim's words: the area-weighted sum of face normals
at vertex `v` — each incident face (with corner multiplicity) contributes
its unnormalized cross product, whose magnitude is proportional to twice
the face's area. -/
def areaWeightedNormalSum (V : List ℚ) (T : List (Nat × Nat × Nat)) (v : Nat) :
    ℚ × ℚ × ℚ :=
  T.foldl
    (fun acc t =>
      let cr := faceCross V t.1 t.2.1 t.2.2
      let m := vertMult v t
      (acc.1 + m * cr.1, acc.2.1 + m * cr.2.1, acc.2.2 + m * cr.2.2))
    (0, 0, 0)

/-- Modelled from the amended claim: the unit-weighted sum of face normals
at vertex `v` — each incident face contributes its normalized face
normal. -/
def unitNormalSum (s : ℚ → ℚ) (V : List ℚ) (T : List (Nat × Nat × Nat)) (v : Nat) :
    ℚ × ℚ × ℚ :=
  T.foldl
    (fun acc t =>
      let u := unitFaceNormal s V t.1 t.2.1 t.2.2
      let m := vertMult v t
      (acc.1 + m * u.1, acc.2.1 + m * u.2.1, acc.2.2 + m * u.2.2))
    (0, 0, 0)

/-- Triple read out of the JavaScript accumulator array at vertex `v`. -/
def tripleAtJS (l : List JSNum) (v : Nat) : JSNum × JSNum × JSNum :=
  (l.getD (v * 3) .undefined, l.getD (v * 3 + 1) .undefined, l.getD (v * 3 + 2) .undefined)

/-- Rational mirror of the accumulator write `l[n] += x` (in-range). -/
def addAtQ (L : List ℚ) (n : Nat) (x : ℚ) : List ℚ := L.set n (L.getD n 0 + x)

/-- Rational mirror of `accumOneFace` for natural, in-range corner
indices: the nine sequential accumulator writes. -/
def accumOneFaceQ (s : ℚ → ℚ) (V : List ℚ) (a b c : Nat) (L : List ℚ) : List ℚ :=
  let u := unitFaceNormal s V a b c
  let l1 := addAtQ L (a * 3) u.1
  let l2 := addAtQ l1 (a * 3 + 1) u.2.1
  let l3 := addAtQ l2 (a * 3 + 2) u.2.2
  let l4 := addAtQ l3 (b * 3) u.1
  let l5 := addAtQ l4 (b * 3 + 1) u.2.1
  let l6 := addAtQ l5 (b * 3 + 2) u.2.2
  let l7 := addAtQ l6 (c * 3) u.1
  let l8 := addAtQ l7 (c * 3 + 1) u.2.1
  addAtQ l8 (c * 3 + 2) u.2.2

/-- Rational mirror of the face loop over a triple list. -/
def accumFacesQ (s : ℚ → ℚ) (V : List ℚ) : List (Nat × Nat × Nat) → List ℚ → List ℚ
  | [], L => L
  | t :: rest, L => accumFacesQ s V rest (accumOneFaceQ s V t.1 t.2.1 t.2.2 L)

/-- Proof-internal summand: what one face adds to accumulator slot `i`
over its nine sequential writes. -/
def faceContrib (s : ℚ → ℚ) (V : List ℚ) (i : Nat) (t : Nat × Nat × Nat) : ℚ :=
  let u := unitFaceNormal s V t.1 t.2.1 t.2.2
  (if i = t.1 * 3 then u.1 else 0) + (if i = t.1 * 3 + 1 then u.2.1 else 0) +
    (if i = t.1 * 3 + 2 then u.2.2 else 0) +
    (if i = t.2.1 * 3 then u.1 else 0) + (if i = t.2.1 * 3 + 1 then u.2.1 else 0) +
    (if i = t.2.1 * 3 + 2 then u.2.2 else 0) +
    (if i = t.2.2 * 3 then u.1 else 0) + (if i = t.2.2 * 3 + 1 then u.2.1 else 0) +
    (if i = t.2.2 * 3 + 2 then u.2.2 else 0)

/-- Proof-internal: a batch of sequential accumulator writes. -/
def applyWrites (L : List ℚ) (ws : List (Nat × ℚ)) : List ℚ :=
  ws.foldl (fun l w => addAtQ l w.1 w.2) L

/-- Demonstration vertices for the normal-weighting claims: a unit right
triangle in the XY-plane and a third edge of length 2 along Z, giving two
faces of different areas that share vertices 0 and 1. -/
def normalsDemoVertices : List ℚ := [0, 0, 0, 1, 0, 0, 0, 1, 0, 0, 0, 2]

/-- The two demonstration faces `(0,1,2)` (cross-product magnitude 1) and
`(0,1,3)` (cross-product magnitude 2). -/
def normalsDemoFaces : List (Nat × Nat × Nat) := [(0, 1, 2), (0, 1, 3)]

end RhinoCompute

end GHDef

/-! ## Theorems about the claims -/

open GHDef GHDef.GrasshopperParser

set_option maxRecDepth 100000 in
/-- C1: the spec requires validation to reject buffers whose printable
ratio lies outside the interval 0.1 to 0.9, but the code's check
`textRatio < 0.1 && textRatio > 0.9` is an unsatisfiable conjunction and
never rejects anything: it is false on every buffer, and a concrete
200-byte buffer with printable ratio 0 (far below 0.1) passes
`validateFileStructure`. -/
theorem c1_text_ratio_check_unsatisfiable :
    (∀ b : Bytes, textRatioRejects b = false) ∧
      calculateTextRatio textRatioDemoBuffer < 1 / 10 ∧
      validateFileStructure textRatioDemoBuffer = true := by
  refine ⟨?_, by with_unfolding_all decide, by with_unfolding_all decide⟩
  intro b
  unfold textRatioRejects
  by_cases h : calculateTextRatio b < 1 / 10
  · have h2 : ¬ ((9 : ℚ) / 10 < calculateTextRatio b) := by linarith
    rw [decide_eq_false h2, Bool.and_false]
  · rw [decide_eq_false h, Bool.false_and]

/-- C9: `validateGrasshopperFile` returns false for every buffer shorter
than 100 bytes, and false for every all-zero buffer longer than 100 bytes
(null-byte ratio 1 exceeds the 0.8 rejection threshold). -/
theorem c9_validate_small_and_allzero_rejected :
    (∀ b : Bytes, b.length < 100 → validateGrasshopperFile b = false) ∧
      (∀ b : Bytes, 100 < b.length → (∀ x ∈ b, x = 0) →
        validateGrasshopperFile b = false) := by
  constructor
  · intro b h
    unfold validateGrasshopperFile
    rw [if_pos h]
  · intro b hlen hz
    have h1 : ¬ b.length < 100 := by omega
    by_cases hbig : 100 * 1024 * 1024 < b.length
    · unfold validateGrasshopperFile
      rw [if_neg h1, if_pos hbig]
    · have hcount : b.count 0 = b.length :=
        List.count_eq_length.mpr fun x hx => (hz x hx).symm
      have hlen0 : (b.length : ℚ) ≠ 0 := by
        have hne : b.length ≠ 0 := by omega
        exact_mod_cast hne
      have hratio : calculateNullByteRatio b = 1 := by
        unfold calculateNullByteRatio
        rw [hcount]
        exact div_self hlen0
      have hlt : (8 : ℚ) / 10 < calculateNullByteRatio b := by
        rw [hratio]; norm_num
      have hstruct : validateFileStructure b = false := by
        unfold validateFileStructure
        rw [if_pos hlt]
      unfold validateGrasshopperFile
      rw [if_neg h1, if_neg hbig, if_pos (by simp [hstruct])]

set_option maxRecDepth 100000 in
/-- C9 witness: the two branches of the validation property evaluated at a
50-byte buffer and at a 150-byte all-zero buffer. -/
theorem c9_validate_small_and_allzero_rejected_witness :
    validateGrasshopperFile (List.replicate 50 0) = false ∧
      validateGrasshopperFile (List.replicate 150 0) = false :=
  ⟨c9_validate_small_and_allzero_rejected.1 _ (by decide),
   c9_validate_small_and_allzero_rejected.2 _ (by decide) (by decide)⟩

set_option maxRecDepth 100000 in
/-- C6 counterexample: `sliderScenarioBuffer` satisfies the scenario — it
contains the `0x00` serialization marker, a `"GH_Document"` token, exactly
one textual encoding of the Number-Slider GUID (at offset 40, no other
encoding present), followed 36 bytes later (offsets 76..87, well within
1000 bytes) by the three little-endian floats 50.0, 0.0, 100.0 — yet the
parse yields one Number parameter whose value is a spurious float below 1
decoded from the GUID's own ASCII bytes, not approximately 50 (its min and
max are likewise spurious values, not 0 and 100). -/
theorem c6_slider_scenario_counterexample :
    sliderScenarioBuffer.getD 0 0 = 0 ∧
      bufIndexOf sliderScenarioBuffer (bytesOf "GH_Document") 0 = some 540 ∧
      bufIndexOf sliderScenarioBuffer
        (bytesOf "57da07bd-ecab-415d-9d86-af36d7073abc") 0 = some 40 ∧
      bufIndexOf sliderScenarioBuffer
        (bytesOf "57da07bd-ecab-415d-9d86-af36d7073abc") 41 = none ∧
      bufIndexOf sliderScenarioBuffer
        (bytesOf "57da07bdecab415d9d86af36d7073abc") 0 = none ∧
      bufIndexOf sliderScenarioBuffer
        (bytesOf "57DA07BDECAB415D9D86AF36D7073ABC") 0 = none ∧
      bufIndexOf sliderScenarioBuffer
        (bytesOf "57DA07BD-ECAB-415D-9D86-AF36D7073ABC") 0 = none ∧
      bufSlice sliderScenarioBuffer 76 88 =
        [0, 0, 72, 66, 0, 0, 0, 0, 0, 0, 200, 66] ∧
      parseDefinitionParameters sliderScenarioBuffer = some
        [{ id := "slider_40".toList
           name := "da07bd".toList
           ptype := .number
           value := .num (.fin (5904049 / 2251799813685248))
           minv := some (.fin (11363381 / 68719476736))
           maxv := some (.fin (2985497 / 288230376151711744))
           stepv := some (.fin (11757153 / 4398046511104))
           componentType := "Number Slider".toList }] ∧
      (5904049 : ℚ) / 2251799813685248 < 1 := by
  refine ⟨by with_unfolding_all decide, by with_unfolding_all decide,
    by with_unfolding_all decide, by with_unfolding_all decide,
    by with_unfolding_all decide, by with_unfolding_all decide,
    by with_unfolding_all decide, by with_unfolding_all decide,
    by with_unfolding_all rfl, by with_unfolding_all decide⟩

set_option maxRecDepth 100000 in
/-- C6 amended: on a scenario buffer whose three floats 50.0, 0.0, 100.0
are the first in-range 4-byte-aligned float reads of the slider's
±500-byte search window (here they precede the GUID, whose own ASCII bytes
always decode to spurious in-range floats), the parse yields exactly one
Number parameter with value 50, min 0 and max 100 — the spurious GUID
floats then land only in the `step` slot. -/
theorem c6_slider_scenario_amended :
    sliderScenarioAlignedBuffer.getD 0 0 = 0 ∧
      bufIndexOf sliderScenarioAlignedBuffer (bytesOf "GH_Document") 0 = some 2 ∧
      bufIndexOf sliderScenarioAlignedBuffer
        (bytesOf "57da07bd-ecab-415d-9d86-af36d7073abc") 0 = some 540 ∧
      bufIndexOf sliderScenarioAlignedBuffer
        (bytesOf "57da07bd-ecab-415d-9d86-af36d7073abc") 541 = none ∧
      bufIndexOf sliderScenarioAlignedBuffer
        (bytesOf "57da07bdecab415d9d86af36d7073abc") 0 = none ∧
      bufIndexOf sliderScenarioAlignedBuffer
        (bytesOf "57DA07BDECAB415D9D86AF36D7073ABC") 0 = none ∧
      bufIndexOf sliderScenarioAlignedBuffer
        (bytesOf "57DA07BD-ECAB-415D-9D86-AF36D7073ABC") 0 = none ∧
      bufSlice sliderScenarioAlignedBuffer 40 52 =
        [0, 0, 72, 66, 0, 0, 0, 0, 0, 0, 200, 66] ∧
      parseDefinitionParameters sliderScenarioAlignedBuffer = some
        [{ id := "slider_540".toList
           name := "da07bd".toList
           ptype := .number
           value := .num (.fin 50)
           minv := some (.fin 0)
           maxv := some (.fin 100)
           stepv := some (.fin (5904049 / 2251799813685248))
           componentType := "Number Slider".toList }] := by
  refine ⟨by with_unfolding_all decide, by with_unfolding_all decide,
    by with_unfolding_all decide, by with_unfolding_all decide,
    by with_unfolding_all decide, by with_unfolding_all decide,
    by with_unfolding_all decide, by with_unfolding_all decide,
    by with_unfolding_all rfl⟩

open GHDef.RhinoCompute

/-- Helper: an entry whose `InnerTree` lacks a non-empty exact `"{0}"`
branch fails extraction without touching the accumulators. -/
theorem extract_fails_without_zero_branch (s : ℚ → ℚ) (o : OutputParam)
    (st : GeoState) (h : innerTreeZero o = none ∨ innerTreeZero o = some []) :
    extractGeometryFromOutput s o st = (some .noValidGeometryData, st) := by
  unfold extractGeometryFromOutput
  have hzero : o.innerTree.findSome?
      (fun kv => if kv.1 = "{0}".toList then some kv.2 else none) = innerTreeZero o :=
    rfl
  rw [hzero]
  rcases h with h | h <;> rw [h]

/-- Helper: a geometry-named entry with no usable `"{0}"` branch is a
no-op of the entry-processing fold. -/
theorem processOutputs_skips_failing_entry (s : ℚ → ℚ) (o : OutputParam)
    (rest : List OutputParam) (st : GeoState) (found : Bool)
    (h : innerTreeZero o = none ∨ innerTreeZero o = some []) :
    processOutputs s (o :: rest) st found = processOutputs s rest st found := by
  conv_lhs => unfold processOutputs
  by_cases hn : o.paramName = []
  · rw [if_pos hn]
  · rw [if_neg hn]
    by_cases hg : isGeometryOutput o.paramName = true
    · rw [if_pos hg, extract_fails_without_zero_branch s o st h]
    · rw [if_neg hg]

/-- Helper: removing a geometry-named entry with no usable `"{0}"` branch
from anywhere in the entry list leaves the fold unchanged. -/
theorem processOutputs_erase_failing_entry (s : ℚ → ℚ) (o : OutputParam)
    (pre post : List OutputParam)
    (h : innerTreeZero o = none ∨ innerTreeZero o = some []) :
    ∀ (st : GeoState) (found : Bool),
      processOutputs s (pre ++ o :: post) st found =
        processOutputs s (pre ++ post) st found := by
  induction pre with
  | nil =>
    intro st found
    exact processOutputs_skips_failing_entry s o post st found h
  | cons p pre ih =>
    intro st found
    show processOutputs s (p :: (pre ++ o :: post)) st found =
      processOutputs s (p :: (pre ++ post)) st found
    conv_lhs => unfold processOutputs
    conv_rhs => unfold processOutputs
    by_cases hn : p.paramName = []
    · rw [if_pos hn, if_pos hn]; exact ih st found
    · rw [if_neg hn, if_neg hn]
      by_cases hg : isGeometryOutput p.paramName = true
      · rw [if_pos hg, if_pos hg]
        cases hx : extractGeometryFromOutput s p st with
        | mk e st' =>
          cases e with
          | none => exact ih st' true
          | some err => exact ih st' found
      · rw [if_neg hg, if_neg hg]
        exact ih st found

/-- C10: extraction reads exclusively from `InnerTree["{0}"][0].data`: an
entry selected as geometry output whose `InnerTree` has no non-empty
branch under the exact key `"{0}"` fails its extraction (even if geometry
data sits under another key), and such an entry is skipped — deleting it
from the envelope leaves the whole decode result unchanged rather than
aborting the response. -/
theorem c10_extraction_reads_only_zero_branch :
    (∀ (s : ℚ → ℚ) (o : OutputParam) (st : GeoState),
        innerTreeZero o = none ∨ innerTreeZero o = some [] →
        extractGeometryFromOutput s o st = (some .noValidGeometryData, st)) ∧
      (∀ (s : ℚ → ℚ) (pre post : List OutputParam) (o : OutputParam),
        o.paramName ≠ [] → isGeometryOutput o.paramName = true →
        (innerTreeZero o = none ∨ innerTreeZero o = some []) →
        parseRhinoComputeResponse s (pre ++ o :: post) =
          parseRhinoComputeResponse s (pre ++ post)) := by
  constructor
  · exact fun s o st h => extract_fails_without_zero_branch s o st h
  · intro s pre post o _ _ h
    unfold parseRhinoComputeResponse
    rw [processOutputs_erase_failing_entry s o pre post h]

set_option maxRecDepth 10000 in
/-- C10 witness: a geometry-named entry holding valid data under branch
key `"0"` (not `"{0}"`) fails extraction untouched, and an envelope
containing it plus a good entry decodes exactly like the envelope without
it. -/
theorem c10_extraction_reads_only_zero_branch_witness :
    extractGeometryFromOutput ratSqrt wrongKeyEntry ⟨[], [], []⟩ =
        (some .noValidGeometryData, ⟨[], [], []⟩) ∧
      parseRhinoComputeResponse ratSqrt ([] ++ wrongKeyEntry :: [triangleEntry]) =
        parseRhinoComputeResponse ratSqrt ([] ++ [triangleEntry]) :=
  ⟨c10_extraction_reads_only_zero_branch.1 ratSqrt wrongKeyEntry ⟨[], [], []⟩
      (Or.inl (by with_unfolding_all decide)),
   c10_extraction_reads_only_zero_branch.2 ratSqrt [] [triangleEntry] wrongKeyEntry
      (by with_unfolding_all decide) (by with_unfolding_all decide)
      (Or.inl (by with_unfolding_all decide))⟩

set_option maxRecDepth 100000 in
/-- C3 counterexample: decoding does not stop at the first entry that
yields geometry.  A single good entry decodes to a 3-vertex triangle
(9 coordinates), but an envelope with two copies of that entry returns a
mesh whose vertices and faces concatenate both entries' geometry
(18 coordinates, 6 face indices) — geometry from more than one entry.
The `ratSqrt` equations record that the abstract square root agrees with
the real one on every root taken in these runs. -/
theorem c3_first_success_does_not_stop :
    parseRhinoComputeResponse ratSqrt [triangleEntry] = .ok triangleMesh ∧
      parseRhinoComputeResponse ratSqrt [triangleEntry, triangleEntry] =
        .ok doubleTriangleMesh ∧
      doubleTriangleMesh.vertices.length = 2 * triangleMesh.vertices.length ∧
      ratSqrt 0 = 0 ∧ ratSqrt 1 = 1 ∧ ratSqrt 4 = 2 :=
  ⟨by with_unfolding_all rfl, by with_unfolding_all rfl, by with_unfolding_all rfl,
   by with_unfolding_all decide, by with_unfolding_all decide,
   by with_unfolding_all decide⟩

/-- The vertex-reading loop only appends: the accumulator never shrinks. -/
theorem readVertsLoop_len (buffer : Bytes) :
    ∀ (n offset : Nat) (acc : List JSNum),
      acc.length ≤ (readVertsLoop buffer n offset acc).1.length
  | 0, _, _ => le_refl _
  | n + 1, offset, acc => by
    show acc.length ≤
      (if offset + 12 ≤ buffer.length then
        readVertsLoop buffer n (offset + 12) (acc ++ [readFloatLE buffer offset,
          readFloatLE buffer (offset + 4), readFloatLE buffer (offset + 8)])
      else (acc, offset)).1.length
    split
    · exact le_trans (by rw [List.length_append]; omega)
        (readVertsLoop_len buffer n (offset + 12) _)
    · exact le_refl _

/-- `parseRhinoMeshFormat` only appends to the shared vertex array. -/
theorem parseRhinoMeshFormat_len (buffer : Bytes) (st : GeoState) :
    st.vertices.length ≤ (parseRhinoMeshFormat buffer st).vertices.length := by
  unfold parseRhinoMeshFormat
  exact readVertsLoop_len buffer _ 16 st.vertices

/-- A successful `parseOpenNURBSFormat` only appends to the shared vertex
array. -/
theorem parseOpenNURBSFormat_len (buffer : Bytes) (st st' : GeoState)
    (h : parseOpenNURBSFormat buffer st = .ok st') :
    st.vertices.length ≤ st'.vertices.length := by
  simp only [parseOpenNURBSFormat] at h
  split at h
  · cases h
  · cases h
    exact readVertsLoop_len buffer _ 16 st.vertices

/-- A successful `parseSimpleMeshFormat` only appends to the shared vertex
array. -/
theorem parseSimpleMeshFormat_len (buffer : Bytes) (st st' : GeoState)
    (h : parseSimpleMeshFormat buffer st = .ok st') :
    st.vertices.length ≤ st'.vertices.length := by
  simp only [parseSimpleMeshFormat] at h
  split at h
  · cases h
  · cases h
    exact readVertsLoop_len buffer _ 8 st.vertices

/-- `parseMeshData` never shrinks the shared vertex array, on success or
failure. -/
theorem parseMeshData_len (s : ℚ → ℚ) (d : List Char) (st : GeoState) :
    st.vertices.length ≤ (parseMeshData s d st).2.vertices.length := by
  simp only [parseMeshData]
  split
  · exact le_refl _
  · split
    · exact le_refl _
    · next st' hok =>
      have hlen : st.vertices.length ≤ st'.vertices.length := by
        split at hok
        · cases hok
          exact parseRhinoMeshFormat_len _ st
        · split at hok
          · exact parseOpenNURBSFormat_len _ st st' hok
          · exact parseSimpleMeshFormat_len _ st st' hok
      split
      · exact hlen
      · exact hlen

/-- A successful `parseMeshData` leaves the shared vertex array
non-empty. -/
theorem parseMeshData_success_pos (s : ℚ → ℚ) (d : List Char) (st : GeoState) :
    (parseMeshData s d st).1 = none →
      0 < (parseMeshData s d st).2.vertices.length := by
  simp only [parseMeshData]
  split
  · intro h; cases h
  · split
    · intro h; cases h
    · next st' hok =>
      split
      · next hpos => intro _; exact hpos.1
      · intro h; cases h

/-- `extractGeometryFromOutput` never shrinks the shared vertex array. -/
theorem extractGeometry_len (s : ℚ → ℚ) (o : OutputParam) (st : GeoState) :
    st.vertices.length ≤ (extractGeometryFromOutput s o st).2.vertices.length := by
  unfold extractGeometryFromOutput
  split
  · exact parseMeshData_len s _ st
  · exact le_refl _

/-- A successful `extractGeometryFromOutput` leaves the shared vertex
array non-empty. -/
theorem extractGeometry_success_pos (s : ℚ → ℚ) (o : OutputParam) (st : GeoState) :
    (extractGeometryFromOutput s o st).1 = none →
      0 < (extractGeometryFromOutput s o st).2.vertices.length := by
  unfold extractGeometryFromOutput
  split
  · exact parseMeshData_success_pos s _ st
  · intro h; cases h

/-- Once the `geometryFound` flag is true, the loop keeps a non-empty
shared vertex array through to the end. -/
theorem processOutputs_flag_pos (s : ℚ → ℚ) :
    ∀ (values : List OutputParam) (st : GeoState) (found : Bool),
      (found = true → 0 < st.vertices.length) →
      (processOutputs s values st found).2 = true →
      0 < (processOutputs s values st found).1.vertices.length
  | [], st, found => fun hinv hflag => hinv hflag
  | o :: rest, st, found => by
    intro hinv hflag
    unfold processOutputs at hflag ⊢
    by_cases hn : o.paramName = []
    · rw [if_pos hn] at hflag ⊢
      exact processOutputs_flag_pos s rest st found hinv hflag
    · rw [if_neg hn] at hflag ⊢
      by_cases hg : isGeometryOutput o.paramName = true
      · rw [if_pos hg] at hflag ⊢
        cases hx : extractGeometryFromOutput s o st with
        | mk e st' =>
          rw [hx] at hflag
          cases e with
          | none =>
            dsimp only at hflag ⊢
            exact processOutputs_flag_pos s rest st' true
              (fun _ => by
                have h2 := extractGeometry_success_pos s o st
                rw [hx] at h2
                exact h2 rfl) hflag
          | some err =>
            dsimp only at hflag ⊢
            exact processOutputs_flag_pos s rest st' found
              (fun hf => by
                have h2 := extractGeometry_len s o st
                rw [hx] at h2
                exact lt_of_lt_of_le (hinv hf) h2) hflag
      · rw [if_neg hg] at hflag ⊢
        exact processOutputs_flag_pos s rest st found hinv hflag

/-- A failing geometry validation carries the `invalidGeometry` tag and no
other. -/
theorem validateGeometry_some_eq {V : List JSNum} {F : List ℚ} {e : RCErr}
    (h : validateGeometry V F = some e) : e = .invalidGeometry := by
  unfold validateGeometry at h
  split_ifs at h <;> first
  | (injection h with h2; exact h2.symm)
  | (cases h)

/-- C3 amended: the decoding loop has no early exit and every successful
extraction contributes to the shared accumulators (see the counterexample
theorem for a two-entry concatenation); `noGeometryFound` is returned
exactly when no entry's extraction succeeds, i.e. the loop's
`geometryFound` flag stays false over the whole envelope, covering every
failure mode — unselected entries (empty name, no geometry keyword),
entries without a usable `"{0}"` branch, and entries failing anywhere
inside `parseMeshData`.  The source's additional `vertices.length === 0`
disjunct is redundant: a successful extraction leaves the shared vertex
array non-empty, and the array never shrinks thereafter. -/
theorem c3_no_geometry_iff_no_extraction_succeeds (s : ℚ → ℚ) (values : List OutputParam) :
    parseRhinoComputeResponse s values = .error .noGeometryFound ↔
      (processOutputs s values ⟨[], [], []⟩ false).2 = false := by
  unfold parseRhinoComputeResponse
  constructor
  · intro h
    by_contra hne
    have hflag : (processOutputs s values ⟨[], [], []⟩ false).2 = true := by
      cases hb : (processOutputs s values ⟨[], [], []⟩ false).2
      · exact absurd hb hne
      · rfl
    have hpos : 0 < (processOutputs s values ⟨[], [], []⟩ false).1.vertices.length :=
      processOutputs_flag_pos s values ⟨[], [], []⟩ false
        (fun hf => absurd hf (by decide)) hflag
    have hcond : ¬((processOutputs s values ⟨[], [], []⟩ false).2 = false ∨
        (processOutputs s values ⟨[], [], []⟩ false).1.vertices.length = 0) := by
      push_neg
      exact ⟨by simp [hflag], by omega⟩
    rw [if_neg hcond] at h
    cases hv : validateGeometry (processOutputs s values ⟨[], [], []⟩ false).1.vertices
        (processOutputs s values ⟨[], [], []⟩ false).1.faces with
    | none =>
      rw [hv] at h
      exact absurd h (by simp)
    | some e =>
      rw [hv] at h
      have he : e = .noGeometryFound := by
        injection h with h2
      have hi : e = .invalidGeometry := validateGeometry_some_eq hv
      rw [he] at hi
      cases hi
  · intro h
    rw [if_pos (Or.inl h)]

/-- Helper: inversion of a passing geometry validation — exactly the
checked invariants hold. -/
theorem validateGeometry_none {V : List JSNum} {F : List ℚ}
    (h : validateGeometry V F = none) :
    V.length % 3 = 0 ∧ F.length % 3 = 0 ∧
      (∀ q ∈ F, 0 ≤ q ∧ q < ((V.length / 3 : ℕ) : ℚ)) ∧
      (∀ v ∈ V, v.isFinite = true) := by
  unfold validateGeometry at h
  split_ifs at h with h1 h2 h3 h4 h5 h6
  try simp at h
  refine ⟨by omega, by omega, ?_, ?_⟩
  · intro q hq
    have hall := List.all_eq_true.mp h5 q hq
    simp only [Bool.not_eq_true', Bool.or_eq_false_iff, decide_eq_false_iff_not] at hall
    exact ⟨le_of_not_lt hall.1, lt_of_not_le hall.2⟩
  · intro v hv
    exact List.all_eq_true.mp h6 v hv

/-- C4: every mesh actually returned by the response decoder satisfies the
geometry invariant — coordinate count and face-index count divisible by 3,
every face index at least 0 and below the vertex count, every vertex
coordinate finite; a violating accumulation is rejected (`invalidGeometry`)
instead of being returned, since the only `ok` exit runs the validator
first. -/
theorem c4_returned_mesh_satisfies_invariant (s : ℚ → ℚ)
    (values : List OutputParam) (m : GeoState)
    (h : parseRhinoComputeResponse s values = .ok m) :
    m.vertices.length % 3 = 0 ∧ m.faces.length % 3 = 0 ∧
      (∀ q ∈ m.faces, 0 ≤ q ∧ q < ((m.vertices.length / 3 : ℕ) : ℚ)) ∧
      (∀ v ∈ m.vertices, v.isFinite = true) := by
  unfold parseRhinoComputeResponse at h
  by_cases hc : (processOutputs s values ⟨[], [], []⟩ false).2 = false ∨
      (processOutputs s values ⟨[], [], []⟩ false).1.vertices.length = 0
  · rw [if_pos hc] at h
    exact absurd h (by simp)
  · rw [if_neg hc] at h
    cases hv : validateGeometry (processOutputs s values ⟨[], [], []⟩ false).1.vertices
        (processOutputs s values ⟨[], [], []⟩ false).1.faces with
    | some e => rw [hv] at h; exact absurd h (by simp)
    | none =>
      rw [hv] at h
      have hm : (processOutputs s values ⟨[], [], []⟩ false).1 = m := by
        exact Except.ok.inj h
      rw [hm] at hv
      exact validateGeometry_none hv

set_option maxRecDepth 100000 in
/-- C4 witness: the invariant instantiated at the decode of a concrete
single-triangle envelope. -/
theorem c4_returned_mesh_satisfies_invariant_witness :
    parseRhinoComputeResponse ratSqrt [triangleEntry] = .ok triangleMesh ∧
      (triangleMesh.vertices.length % 3 = 0 ∧ triangleMesh.faces.length % 3 = 0 ∧
        (∀ q ∈ triangleMesh.faces, 0 ≤ q ∧
          q < ((triangleMesh.vertices.length / 3 : ℕ) : ℚ)) ∧
        (∀ v ∈ triangleMesh.vertices, v.isFinite = true)) :=
  have h : parseRhinoComputeResponse ratSqrt [triangleEntry] = .ok triangleMesh := by
    with_unfolding_all rfl
  ⟨h, c4_returned_mesh_satisfies_invariant ratSqrt [triangleEntry] triangleMesh h⟩

/-- C7: decoding a JSON mesh object with one face object appends the
triangle `A, B, C`, followed by the second triangle `A, C, D` exactly when
`D` differs from `C`; when `D = C` only the single triangle is emitted. -/
theorem c7_quad_face_triangulation (st : GeoState) (vs ns : Option (List JVec))
    (a b c d : ℚ) (h : d ≠ c) :
    (parseMeshFromJSON ⟨vs, some [⟨some a, some b, some c, some d⟩], ns⟩ st).faces =
        st.faces ++ [a, b, c, a, c, d] ∧
      (parseMeshFromJSON ⟨vs, some [⟨some a, some b, some c, some c⟩], ns⟩ st).faces =
        st.faces ++ [a, b, c] := by
  constructor
  · simp [parseMeshFromJSON, h]
  · simp [parseMeshFromJSON]

/-- C7 witness: the spec's concrete quad `A:0, B:1, C:2, D:3` splits into
`[0,1,2]` and `[0,2,3]`, and the degenerate `D = C` face yields one
triangle. -/
theorem c7_quad_face_triangulation_witness :
    (parseMeshFromJSON ⟨none, some [⟨some 0, some 1, some 2, some 3⟩], none⟩
        ⟨[], [], []⟩).faces = [0, 1, 2, 0, 2, 3] ∧
      (parseMeshFromJSON ⟨none, some [⟨some 0, some 1, some 2, some 2⟩], none⟩
        ⟨[], [], []⟩).faces = [0, 1, 2] := by
  have h := c7_quad_face_triangulation ⟨[], [], []⟩ none none 0 1 2 3 (by decide)
  simpa using h

/-- Helper: length effect of a single accumulator write. -/
theorem vnAddAt_length (l : List JSNum) (idx : JSNum) (v : JSNum) :
    (vnAddAt l idx v).length =
      match natIndexOpt idx with
      | none => l.length
      | some n => if n < l.length then l.length else n + 1 := by
  unfold vnAddAt
  cases natIndexOpt idx with
  | none => rfl
  | some n =>
    show (if n < l.length then l.set n (jsAdd (l.getD n .undefined) v)
      else l ++ List.replicate (n - l.length) .undefined ++ [jsAdd .undefined v]).length =
      if n < l.length then l.length else n + 1
    by_cases h : n < l.length
    · rw [if_pos h, if_pos h]
      simp only [List.length_set]
    · rw [if_neg h, if_neg h]
      simp only [List.length_append, List.length_replicate, List.length_cons,
        List.length_nil]
      omega

/-- Helper: a rational that is a nonnegative integer is the cast of its
natural part. -/
theorem rat_eq_natCast_of_den_one {q : ℚ} (h1 : q.den = 1) (h2 : 0 ≤ q.num) :
    q = ((q.num.toNat : ℕ) : ℚ) := by
  have hq : ((q.num : ℤ) : ℚ) = q := (Rat.den_eq_one_iff q).mp h1
  have h3 : q.num = (q.num.toNat : ℤ) := (Int.toNat_of_nonneg h2).symm
  calc q = ((q.num : ℤ) : ℚ) := hq.symm
    _ = (((q.num.toNat : ℕ) : ℤ) : ℚ) := by rw [← h3]
    _ = ((q.num.toNat : ℕ) : ℚ) := by push_cast; rfl

/-- Helper: the array index of a natural-number value. -/
theorem natIndexOpt_natCast (n : ℕ) : natIndexOpt (.fin (n : ℚ)) = some n := by
  unfold natIndexOpt
  show (if ((n : ℚ)).den = 1 ∧ 0 ≤ ((n : ℚ)).num then some ((n : ℚ)).num.toNat
    else none) = some n
  rw [if_pos ⟨Rat.den_natCast n, by rw [Rat.num_natCast]; exact Int.natCast_nonneg n⟩]
  rw [Rat.num_natCast]
  simp

/-- Helper: index of the first component write of a face corner. -/
theorem natIndexOpt_corner0 (n : ℕ) :
    natIndexOpt (jsMul (.fin (n : ℚ)) (.fin 3)) = some (n * 3) := by
  have h : jsMul (.fin (n : ℚ)) (.fin 3) = .fin ((n * 3 : ℕ) : ℚ) := by
    simp only [jsMul]
    push_cast
    ring_nf
  rw [h, natIndexOpt_natCast]

/-- Helper: index of the second component write of a face corner. -/
theorem natIndexOpt_corner1 (n : ℕ) :
    natIndexOpt (jsAdd (jsMul (.fin (n : ℚ)) (.fin 3)) (.fin 1)) = some (n * 3 + 1) := by
  have h : jsAdd (jsMul (.fin (n : ℚ)) (.fin 3)) (.fin 1) =
      .fin ((n * 3 + 1 : ℕ) : ℚ) := by
    simp only [jsMul, jsAdd]
    push_cast
    ring_nf
  rw [h, natIndexOpt_natCast]

/-- Helper: index of the third component write of a face corner. -/
theorem natIndexOpt_corner2 (n : ℕ) :
    natIndexOpt (jsAdd (jsMul (.fin (n : ℚ)) (.fin 3)) (.fin 2)) = some (n * 3 + 2) := by
  have h : jsAdd (jsMul (.fin (n : ℚ)) (.fin 3)) (.fin 2) =
      .fin ((n * 3 + 2 : ℕ) : ℚ) := by
    simp only [jsMul, jsAdd]
    push_cast
    ring_nf
  rw [h, natIndexOpt_natCast]

/-- Helper: an `undefined` corner produces a `NaN` base index. -/
theorem jsMul_undef_fin (y : ℚ) : jsMul .undefined (.fin y) = .nan := rfl

/-- Helper: offsets from a `NaN` base index stay `NaN`. -/
theorem jsAdd_nan_fin (y : ℚ) : jsAdd .nan (.fin y) = .nan := rfl

/-- Helper: a `NaN` index denotes no array slot. -/
theorem natIndexOpt_nan : natIndexOpt .nan = none := rfl

/-- Helper: a write whose index is no array slot leaves the length as it
was. -/
theorem vnAddAt_len_none (l : List JSNum) (idx v : JSNum) (t : ℕ)
    (h : natIndexOpt idx = none) (hl : l.length = t) :
    (vnAddAt l idx v).length = t := by
  have h2 := vnAddAt_length l idx v
  simp only [h] at h2
  rw [h2, hl]

/-- Helper: a write at an in-range natural index preserves the length. -/
theorem vnAddAt_len_some (l : List JSNum) (idx v : JSNum) (n t : ℕ)
    (h : natIndexOpt idx = some n) (hn : n < t) (hl : l.length = t) :
    (vnAddAt l idx v).length = t := by
  have h2 := vnAddAt_length l idx v
  simp only [h] at h2
  rw [h2, hl, if_pos hn]

/-- Helper: the three component writes of one face corner preserve the
accumulator length when the corner index is either no slot at all or an
in-range vertex index. -/
theorem vnAddAt3_length (l : List JSNum) (w ux uy uz : JSNum) (t : ℕ)
    (hl : l.length = t)
    (hc : (natIndexOpt (jsMul w (.fin 3)) = none ∧
           natIndexOpt (jsAdd (jsMul w (.fin 3)) (.fin 1)) = none ∧
           natIndexOpt (jsAdd (jsMul w (.fin 3)) (.fin 2)) = none) ∨
          (∃ n : ℕ, natIndexOpt (jsMul w (.fin 3)) = some (n * 3) ∧
           natIndexOpt (jsAdd (jsMul w (.fin 3)) (.fin 1)) = some (n * 3 + 1) ∧
           natIndexOpt (jsAdd (jsMul w (.fin 3)) (.fin 2)) = some (n * 3 + 2) ∧
           n * 3 + 2 < t)) :
    (vnAddAt (vnAddAt (vnAddAt l (jsMul w (.fin 3)) ux)
      (jsAdd (jsMul w (.fin 3)) (.fin 1)) uy)
      (jsAdd (jsMul w (.fin 3)) (.fin 2)) uz).length = t := by
  rcases hc with ⟨h0, h1, h2⟩ | ⟨n, h0, h1, h2, hn⟩
  · exact vnAddAt_len_none _ _ _ _ h2
      (vnAddAt_len_none _ _ _ _ h1 (vnAddAt_len_none _ _ _ _ h0 hl))
  · exact vnAddAt_len_some _ _ _ _ _ h2 (by omega)
      (vnAddAt_len_some _ _ _ _ _ h1 (by omega)
        (vnAddAt_len_some _ _ _ _ _ h0 (by omega) hl))

/-- Helper: a face value that is `undefined` or an in-range natural vertex
index yields the corner-write index facts used by `vnAddAt3_length`. -/
theorem cornerFacts (w : JSNum) (t : ℕ)
    (h : w = .undefined ∨ ∃ n : ℕ, w = .fin (n : ℚ) ∧ n * 3 + 2 < t) :
    (natIndexOpt (jsMul w (.fin 3)) = none ∧
     natIndexOpt (jsAdd (jsMul w (.fin 3)) (.fin 1)) = none ∧
     natIndexOpt (jsAdd (jsMul w (.fin 3)) (.fin 2)) = none) ∨
    (∃ n : ℕ, natIndexOpt (jsMul w (.fin 3)) = some (n * 3) ∧
     natIndexOpt (jsAdd (jsMul w (.fin 3)) (.fin 1)) = some (n * 3 + 1) ∧
     natIndexOpt (jsAdd (jsMul w (.fin 3)) (.fin 2)) = some (n * 3 + 2) ∧
     n * 3 + 2 < t) := by
  rcases h with rfl | ⟨n, rfl, hn⟩
  · exact Or.inl ⟨rfl, rfl, rfl⟩
  · exact Or.inr ⟨n, natIndexOpt_corner0 n, natIndexOpt_corner1 n,
      natIndexOpt_corner2 n, hn⟩

/-- Helper: one face's nine accumulator writes preserve the accumulator
length when each defined corner is a natural index writing in range. -/
theorem accumOneFace_length (s : ℚ → ℚ) (vertices : List JSNum) (x y z : JSNum)
    (vn : List JSNum)
    (hx : x = .undefined ∨ ∃ n : ℕ, x = .fin (n : ℚ) ∧ n * 3 + 2 < vn.length)
    (hy : y = .undefined ∨ ∃ n : ℕ, y = .fin (n : ℚ) ∧ n * 3 + 2 < vn.length)
    (hz : z = .undefined ∨ ∃ n : ℕ, z = .fin (n : ℚ) ∧ n * 3 + 2 < vn.length) :
    (accumOneFace s vertices x y z vn).length = vn.length := by
  simp only [accumOneFace]
  exact vnAddAt3_length _ z _ _ _ _
    (vnAddAt3_length _ y _ _ _ _
      (vnAddAt3_length _ x _ _ _ _ rfl (cornerFacts x vn.length hx))
      (cornerFacts y vn.length hy))
    (cornerFacts z vn.length hz)

/-- Helper: the whole face loop preserves the accumulator length when
every face value is a natural index writing in range. -/
theorem accumFaces_length (s : ℚ → ℚ) (vertices : List JSNum) :
    ∀ (faces : List ℚ) (vn : List JSNum),
      (∀ q ∈ faces, q.den = 1 ∧ 0 ≤ q.num ∧ q.num.toNat * 3 + 2 < vn.length) →
      (accumFaces s vertices faces vn).length = vn.length
  | [], _, _ => rfl
  | [a], vn, h => by
    have ha := h a (by simp)
    exact accumOneFace_length s vertices _ _ _ vn
      (Or.inr ⟨a.num.toNat, by rw [← rat_eq_natCast_of_den_one ha.1 ha.2.1], ha.2.2⟩)
      (Or.inl rfl) (Or.inl rfl)
  | [a, b], vn, h => by
    have ha := h a (by simp)
    have hb := h b (by simp)
    exact accumOneFace_length s vertices _ _ _ vn
      (Or.inr ⟨a.num.toNat, by rw [← rat_eq_natCast_of_den_one ha.1 ha.2.1], ha.2.2⟩)
      (Or.inr ⟨b.num.toNat, by rw [← rat_eq_natCast_of_den_one hb.1 hb.2.1], hb.2.2⟩)
      (Or.inl rfl)
  | a :: b :: c :: rest, vn, h => by
    have ha := h a (by simp)
    have hb := h b (by simp)
    have hc := h c (by simp)
    have hone : (accumOneFace s vertices (.fin a) (.fin b) (.fin c) vn).length =
        vn.length :=
      accumOneFace_length s vertices _ _ _ vn
        (Or.inr ⟨a.num.toNat, by rw [← rat_eq_natCast_of_den_one ha.1 ha.2.1], ha.2.2⟩)
        (Or.inr ⟨b.num.toNat, by rw [← rat_eq_natCast_of_den_one hb.1 hb.2.1], hb.2.2⟩)
        (Or.inr ⟨c.num.toNat, by rw [← rat_eq_natCast_of_den_one hc.1 hc.2.1], hc.2.2⟩)
    show (accumFaces s vertices rest
      (accumOneFace s vertices (.fin a) (.fin b) (.fin c) vn)).length = vn.length
    rw [accumFaces_length s vertices rest _
      (fun q hq => by
        have hq' := h q (by simp [hq])
        exact ⟨hq'.1, hq'.2.1, by rw [hone]; exact hq'.2.2⟩)]
    exact hone

/-- Helper: the final normalization pass preserves length. -/
theorem normalizeChunks_length (s : ℚ → ℚ) :
    ∀ l : List JSNum, (normalizeChunks s l).length = l.length
  | [] => rfl
  | [_] => rfl
  | [_, _] => rfl
  | x :: y :: z :: rest => by
    show ((if jsLt (.fin 0) (jsSqrt s (jsAdd (jsAdd (jsMul x x) (jsMul y y))
        (jsMul z z))) = true then _ else _) ++ normalizeChunks s rest).length = _
    rw [List.length_append, normalizeChunks_length s rest]
    split <;> simp <;> omega

/-- C8 amended: one call of `generateNormals` over a mesh whose coordinate
count is a multiple of 3 and whose face indices are in-range naturals
appends exactly `vertices.length` normal components — so the invariant
`normals.length = vertices.length` holds when exactly one envelope entry
contributes geometry (fresh accumulators).  With several contributing
entries the decoder re-runs this per entry over the concatenated mesh, so
the returned normals exceed the vertex count (see the counterexample
theorem); the JSON path copies normals without any length check and is
moreover unreachable from the decoder (lenient base64 never throws). -/
theorem c8_generateNormals_appends_vertex_count (s : ℚ → ℚ) (V : List JSNum)
    (F : List ℚ) (N : List JSNum) (hV : V.length % 3 = 0)
    (hF : ∀ q ∈ F, q.den = 1 ∧ 0 ≤ q.num ∧ q.num < ((V.length / 3 : ℕ) : ℤ)) :
    (generateNormals s V F N).length = N.length + V.length := by
  unfold generateNormals accumulatedVertexNormals
  rw [List.length_append, normalizeChunks_length, accumFaces_length]
  · rw [List.length_replicate]
    omega
  · intro q hq
    obtain ⟨h1, h2, h3⟩ := hF q hq
    rw [List.length_replicate]
    refine ⟨h1, h2, ?_⟩
    omega

/-- C8 amended witness: `generateNormals` on the decoded triangle mesh
with fresh accumulators appends exactly 9 components. -/
theorem c8_generateNormals_appends_vertex_count_witness :
    (generateNormals ratSqrt triangleMesh.vertices [0, 1, 2] []).length =
      ([] : List JSNum).length + triangleMesh.vertices.length :=
  c8_generateNormals_appends_vertex_count ratSqrt triangleMesh.vertices [0, 1, 2] []
    (by with_unfolding_all decide) (by with_unfolding_all decide)

set_option maxRecDepth 100000 in
/-- C8 counterexample: an envelope with two geometry entries returns a
mesh with 18 vertex coordinates but 27 normal components (9 from the first
entry's pass plus 18 from the second pass over the concatenated mesh) —
neither empty nor equal to `vertices.length`. -/
theorem c8_normals_length_can_mismatch :
    parseRhinoComputeResponse ratSqrt [triangleEntry, triangleEntry] =
        .ok doubleTriangleMesh ∧
      doubleTriangleMesh.vertices.length = 18 ∧
      doubleTriangleMesh.normals.length = 27 ∧
      ratSqrt 0 = 0 ∧ ratSqrt 1 = 1 ∧ ratSqrt 4 = 2 :=
  ⟨by with_unfolding_all rfl, by with_unfolding_all rfl, by with_unfolding_all rfl,
   by with_unfolding_all decide, by with_unfolding_all decide,
   by with_unfolding_all decide⟩
/-- Plain-rational fact: `jsAdd` on finite values is rational addition. -/
theorem jsAdd_fin (a b : ℚ) : jsAdd (.fin a) (.fin b) = .fin (a + b) := rfl

/-- Plain-rational fact: `jsMul` on finite values is rational
multiplication. -/
theorem jsMul_fin (a b : ℚ) : jsMul (.fin a) (.fin b) = .fin (a * b) := rfl

/-- Plain-rational fact: `jsSub` on finite values is rational
subtraction. -/
theorem jsSub_fin (a b : ℚ) : jsSub (.fin a) (.fin b) = .fin (a - b) := by
  simp [jsSub, jsAdd, jsNeg, sub_eq_add_neg]

/-- Plain-rational fact: `jsLt` on finite values is the rational order. -/
theorem jsLt_fin (a b : ℚ) : jsLt (.fin a) (.fin b) = decide (a < b) := rfl

/-- `Math.sqrt` of a finite nonnegative value is finite. -/
theorem jsSqrt_fin_nonneg (s : ℚ → ℚ) (q : ℚ) (h : 0 ≤ q) :
    jsSqrt s (.fin q) = .fin (s q) := by
  show (if q < 0 then JSNum.nan else JSNum.fin (s q)) = _
  rw [if_neg (not_lt.mpr h)]

/-- Finite division by a positive value is rational division. -/
theorem jsDiv_fin_pos (a d : ℚ) (h : 0 < d) :
    jsDiv (.fin a) (.fin d) = .fin (a / d) := by
  show (if d = 0 then if a = 0 then JSNum.nan else if 0 < a then JSNum.inf
    else JSNum.ninf else JSNum.fin (a / d)) = _
  rw [if_neg (ne_of_gt h)]

/-- The first corner-write index as a natural cast. -/
theorem cornerVal0 (n : ℕ) :
    jsMul (.fin (n : ℚ)) (.fin 3) = .fin ((n * 3 : ℕ) : ℚ) := by
  rw [jsMul_fin]
  congr 1
  push_cast
  ring

/-- The second corner-write index as a natural cast. -/
theorem cornerVal1 (n : ℕ) :
    jsAdd (jsMul (.fin (n : ℚ)) (.fin 3)) (.fin 1) = .fin ((n * 3 + 1 : ℕ) : ℚ) := by
  rw [jsMul_fin, jsAdd_fin]
  congr 1
  push_cast
  ring

/-- The third corner-write index as a natural cast. -/
theorem cornerVal2 (n : ℕ) :
    jsAdd (jsMul (.fin (n : ℚ)) (.fin 3)) (.fin 2) = .fin ((n * 3 + 2 : ℕ) : ℚ) := by
  rw [jsMul_fin, jsAdd_fin]
  congr 1
  push_cast
  ring

/-- Reading a mapped rational list at an in-range index. -/
theorem getD_map_fin (L : List ℚ) (n : ℕ) (h : n < L.length) :
    (L.map JSNum.fin).getD n .undefined = .fin (L.getD n 0) := by
  rw [List.getD_eq_getElem?_getD, List.getD_eq_getElem?_getD, List.getElem?_map,
    List.getElem?_eq_getElem h]
  rfl

/-- `vnGet` on a mapped rational list at an in-range natural index is the
rational read. -/
theorem vnGet_map_fin (L : List ℚ) (n : ℕ) (h : n < L.length) :
    vnGet (L.map JSNum.fin) (.fin (n : ℚ)) = .fin (L.getD n 0) := by
  unfold vnGet
  show (if ((n : ℚ)).den = 1 ∧ 0 ≤ ((n : ℚ)).num ∧
      ((n : ℚ)).num < (L.map JSNum.fin).length then
    (L.map JSNum.fin).getD ((n : ℚ)).num.toNat .undefined else .undefined) = _
  rw [if_pos ⟨Rat.den_natCast n, by rw [Rat.num_natCast]; exact Int.natCast_nonneg n,
    by rw [Rat.num_natCast, List.length_map]; exact_mod_cast h⟩]
  rw [Rat.num_natCast, Int.toNat_natCast]
  exact getD_map_fin L n h

/-- The length of a rational accumulator write. -/
theorem addAtQ_length (L : List ℚ) (n : ℕ) (x : ℚ) :
    (addAtQ L n x).length = L.length := List.length_set ..

/-- `vnAddAt` on a mapped rational list at an in-range natural index is
the rational accumulator write. -/
theorem vnAddAt_map_fin (L : List ℚ) (n : ℕ) (x : ℚ) (h : n < L.length) :
    vnAddAt (L.map JSNum.fin) (.fin (n : ℚ)) (.fin x) =
      (addAtQ L n x).map JSNum.fin := by
  unfold vnAddAt
  rw [natIndexOpt_natCast]
  show (if n < (L.map JSNum.fin).length then
      (L.map JSNum.fin).set n (jsAdd ((L.map JSNum.fin).getD n .undefined) (.fin x))
    else _) = _
  rw [if_pos (by rw [List.length_map]; exact h)]
  rw [getD_map_fin L n h, jsAdd_fin]
  unfold addAtQ
  rw [List.map_set]

/-- A sum of three squares of rationals is nonnegative. -/
theorem sumSq_nonneg (x y z : ℚ) : 0 ≤ x * x + y * y + z * z := by
  nlinarith [mul_self_nonneg x, mul_self_nonneg y, mul_self_nonneg z]

/-- One face-loop iteration on a mapped rational mesh is the rational
mirror `accumOneFaceQ`, when all reads and writes are in range. -/
theorem accumOneFace_map (s : ℚ → ℚ) (V L : List ℚ) (a b c : Nat)
    (haV : a * 3 + 2 < V.length) (hbV : b * 3 + 2 < V.length)
    (hcV : c * 3 + 2 < V.length) (haL : a * 3 + 2 < L.length)
    (hbL : b * 3 + 2 < L.length) (hcL : c * 3 + 2 < L.length) :
    accumOneFace s (V.map JSNum.fin) (.fin (a : ℚ)) (.fin (b : ℚ))
      (.fin (c : ℚ)) (L.map JSNum.fin) =
      (accumOneFaceQ s V a b c L).map JSNum.fin := by
  simp only [accumOneFace, accumOneFaceQ, unitFaceNormal, faceCross, vertTriple]
  rw [cornerVal1 a, cornerVal1 b, cornerVal1 c, cornerVal2 a, cornerVal2 b,
    cornerVal2 c, cornerVal0 a, cornerVal0 b, cornerVal0 c]
  rw [vnGet_map_fin V (a * 3) (by omega), vnGet_map_fin V (a * 3 + 1) (by omega),
    vnGet_map_fin V (a * 3 + 2) (by omega), vnGet_map_fin V (b * 3) (by omega),
    vnGet_map_fin V (b * 3 + 1) (by omega), vnGet_map_fin V (b * 3 + 2) (by omega),
    vnGet_map_fin V (c * 3) (by omega), vnGet_map_fin V (c * 3 + 1) (by omega),
    vnGet_map_fin V (c * 3 + 2) (by omega)]
  simp only [jsSub_fin, jsMul_fin, jsAdd_fin]
  rw [jsSqrt_fin_nonneg s _ (sumSq_nonneg _ _ _)]
  simp only [jsLt_fin, decide_eq_true_eq]
  split
  · next hpos =>
    rw [jsDiv_fin_pos _ _ hpos, jsDiv_fin_pos _ _ hpos, jsDiv_fin_pos _ _ hpos]
    rw [vnAddAt_map_fin L (a * 3) _ (by omega),
      vnAddAt_map_fin _ (a * 3 + 1) _ (by simp only [addAtQ_length]; omega),
      vnAddAt_map_fin _ (a * 3 + 2) _ (by simp only [addAtQ_length]; omega),
      vnAddAt_map_fin _ (b * 3) _ (by simp only [addAtQ_length]; omega),
      vnAddAt_map_fin _ (b * 3 + 1) _ (by simp only [addAtQ_length]; omega),
      vnAddAt_map_fin _ (b * 3 + 2) _ (by simp only [addAtQ_length]; omega),
      vnAddAt_map_fin _ (c * 3) _ (by simp only [addAtQ_length]; omega),
      vnAddAt_map_fin _ (c * 3 + 1) _ (by simp only [addAtQ_length]; omega),
      vnAddAt_map_fin _ (c * 3 + 2) _ (by simp only [addAtQ_length]; omega)]
  · next hpos =>
    rw [vnAddAt_map_fin L (a * 3) _ (by omega),
      vnAddAt_map_fin _ (a * 3 + 1) _ (by simp only [addAtQ_length]; omega),
      vnAddAt_map_fin _ (a * 3 + 2) _ (by simp only [addAtQ_length]; omega),
      vnAddAt_map_fin _ (b * 3) _ (by simp only [addAtQ_length]; omega),
      vnAddAt_map_fin _ (b * 3 + 1) _ (by simp only [addAtQ_length]; omega),
      vnAddAt_map_fin _ (b * 3 + 2) _ (by simp only [addAtQ_length]; omega),
      vnAddAt_map_fin _ (c * 3) _ (by simp only [addAtQ_length]; omega),
      vnAddAt_map_fin _ (c * 3 + 1) _ (by simp only [addAtQ_length]; omega),
      vnAddAt_map_fin _ (c * 3 + 2) _ (by simp only [addAtQ_length]; omega)]

/-- The rational face iteration preserves the accumulator length. -/
theorem accumOneFaceQ_length (s : ℚ → ℚ) (V : List ℚ) (a b c : Nat) (L : List ℚ) :
    (accumOneFaceQ s V a b c L).length = L.length := by
  simp only [accumOneFaceQ, addAtQ_length]

/-- The rational face loop preserves the accumulator length. -/
theorem accumFacesQ_length (s : ℚ → ℚ) (V : List ℚ) :
    ∀ (T : List (Nat × Nat × Nat)) (L : List ℚ),
      (accumFacesQ s V T L).length = L.length
  | [], _ => rfl
  | t :: rest, L => by
    show (accumFacesQ s V rest (accumOneFaceQ s V t.1 t.2.1 t.2.2 L)).length = _
    rw [accumFacesQ_length s V rest, accumOneFaceQ_length]

/-- Reading slot `i` after the rational write `L[n] += x` (in range). -/
theorem addAtQ_getD (L : List ℚ) (n i : Nat) (x : ℚ) (hn : n < L.length) :
    (addAtQ L n x).getD i 0 = if i = n then L.getD i 0 + x else L.getD i 0 := by
  unfold addAtQ
  by_cases h : i = n
  · subst h
    rw [if_pos rfl, List.getD_eq_getElem?_getD, List.getElem?_set_self,
      List.getD_eq_getElem?_getD, List.getElem?_eq_getElem hn]
    · rfl
    · exact hn
  · rw [if_neg h, List.getD_eq_getElem?_getD,
      List.getElem?_set_ne (fun e => h e.symm), List.getD_eq_getElem?_getD]

/-- Reading slot `i` after a batch of in-range writes: the prior value
plus every write landing on `i`. -/
theorem applyWrites_getD (i : Nat) : ∀ (ws : List (Nat × ℚ)) (L : List ℚ),
    (∀ w ∈ ws, w.1 < L.length) →
    (applyWrites L ws).getD i 0 =
      L.getD i 0 + (ws.map (fun w => if i = w.1 then w.2 else 0)).sum
  | [], L, _ => by simp [applyWrites]
  | w :: rest, L, h => by
    show (applyWrites (addAtQ L w.1 w.2) rest).getD i 0 = _
    rw [applyWrites_getD i rest _ (fun w' hw' => by
      rw [addAtQ_length]; exact h w' (List.mem_cons_of_mem _ hw'))]
    rw [addAtQ_getD L w.1 i w.2 (h w (List.mem_cons_self _ _))]
    simp only [List.map_cons, List.sum_cons]
    split_ifs <;> ring

/-- Reading slot `i` after one rational face iteration: the prior value
plus the face's contribution to that slot. -/
theorem accumOneFaceQ_getD (s : ℚ → ℚ) (V : List ℚ) (a b c : Nat) (L : List ℚ)
    (i : Nat) (ha : a * 3 + 2 < L.length) (hb : b * 3 + 2 < L.length)
    (hc : c * 3 + 2 < L.length) :
    (accumOneFaceQ s V a b c L).getD i 0 =
      L.getD i 0 + faceContrib s V i (a, b, c) := by
  rw [show accumOneFaceQ s V a b c L = applyWrites L
    [(a * 3, (unitFaceNormal s V a b c).1),
     (a * 3 + 1, (unitFaceNormal s V a b c).2.1),
     (a * 3 + 2, (unitFaceNormal s V a b c).2.2),
     (b * 3, (unitFaceNormal s V a b c).1),
     (b * 3 + 1, (unitFaceNormal s V a b c).2.1),
     (b * 3 + 2, (unitFaceNormal s V a b c).2.2),
     (c * 3, (unitFaceNormal s V a b c).1),
     (c * 3 + 1, (unitFaceNormal s V a b c).2.1),
     (c * 3 + 2, (unitFaceNormal s V a b c).2.2)] from rfl]
  rw [applyWrites_getD i _ L (by
    intro w hw
    fin_cases hw <;> dsimp <;> omega)]
  simp only [List.map_cons, List.map_nil, List.sum_cons, List.sum_nil, faceContrib]
  ring

/-- Reading slot `i` after the whole rational face loop: the prior value
plus the summed contributions of all faces. -/
theorem accumFacesQ_getD (s : ℚ → ℚ) (V : List ℚ) (i : Nat) :
    ∀ (T : List (Nat × Nat × Nat)) (L : List ℚ),
      (∀ t ∈ T, t.1 * 3 + 2 < L.length ∧ t.2.1 * 3 + 2 < L.length ∧
        t.2.2 * 3 + 2 < L.length) →
      (accumFacesQ s V T L).getD i 0 =
        L.getD i 0 + (T.map (faceContrib s V i)).sum
  | [], L, _ => by simp [accumFacesQ]
  | t :: rest, L, h => by
    show (accumFacesQ s V rest (accumOneFaceQ s V t.1 t.2.1 t.2.2 L)).getD i 0 = _
    rw [accumFacesQ_getD s V i rest _ (fun t' ht' => by
      rw [accumOneFaceQ_length]
      exact h t' (List.mem_cons_of_mem _ ht'))]
    have ht := h t (List.mem_cons_self _ _)
    rw [accumOneFaceQ_getD s V t.1 t.2.1 t.2.2 L i ht.1 ht.2.1 ht.2.2]
    simp only [List.map_cons, List.sum_cons]
    ring

/-- The whole face loop on a mapped rational mesh is the rational mirror
`accumFacesQ`, when all reads and writes are in range. -/
theorem accumFaces_map (s : ℚ → ℚ) (V : List ℚ) :
    ∀ (T : List (Nat × Nat × Nat)) (L : List ℚ),
      (∀ t ∈ T, t.1 * 3 + 2 < V.length ∧ t.2.1 * 3 + 2 < V.length ∧
        t.2.2 * 3 + 2 < V.length) →
      L.length = V.length →
      accumFaces s (V.map JSNum.fin) (flattenTriples T) (L.map JSNum.fin) =
        (accumFacesQ s V T L).map JSNum.fin
  | [], L, _, _ => rfl
  | t :: rest, L, h, hL => by
    have ht := h t (List.mem_cons_self _ _)
    show accumFaces s (V.map JSNum.fin)
      ((t.1 : ℚ) :: (t.2.1 : ℚ) :: (t.2.2 : ℚ) :: flattenTriples rest)
      (L.map JSNum.fin) = _
    show accumFaces s (V.map JSNum.fin) (flattenTriples rest)
      (accumOneFace s (V.map JSNum.fin) (.fin (t.1 : ℚ)) (.fin (t.2.1 : ℚ))
        (.fin (t.2.2 : ℚ)) (L.map JSNum.fin)) = _
    rw [accumOneFace_map s V L t.1 t.2.1 t.2.2 ht.1 ht.2.1 ht.2.2
      (hL ▸ ht.1) (hL ▸ ht.2.1) (hL ▸ ht.2.2)]
    rw [accumFaces_map s V rest _ (fun t' ht' => h t' (List.mem_cons_of_mem _ ht'))
      (by rw [accumOneFaceQ_length]; exact hL)]
    rfl

/-- First-component reading of one face's slot contribution at a vertex:
the corner multiplicity times the accumulated face normal's x. -/
theorem faceContrib_comp0 (s : ℚ → ℚ) (V : List ℚ) (v : Nat) (t : Nat × Nat × Nat) :
    faceContrib s V (v * 3) t =
      vertMult v t * (unitFaceNormal s V t.1 t.2.1 t.2.2).1 := by
  obtain ⟨a, b, c⟩ := t
  simp only [faceContrib, vertMult]
  rw [if_neg (show ¬ v * 3 = a * 3 + 1 by omega),
    if_neg (show ¬ v * 3 = a * 3 + 2 by omega),
    if_neg (show ¬ v * 3 = b * 3 + 1 by omega),
    if_neg (show ¬ v * 3 = b * 3 + 2 by omega),
    if_neg (show ¬ v * 3 = c * 3 + 1 by omega),
    if_neg (show ¬ v * 3 = c * 3 + 2 by omega)]
  have e : ∀ (w : ℕ) (x : ℚ), (if v * 3 = w * 3 then x else 0) =
      (if w = v then 1 else 0) * x := by
    intro w x
    by_cases h : w = v
    · subst h; rw [if_pos rfl, if_pos rfl, one_mul]
    · rw [if_neg (show ¬ v * 3 = w * 3 by omega), if_neg h, zero_mul]
  rw [e a, e b, e c]
  ring

/-- Second-component analogue of `faceContrib_comp0`. -/
theorem faceContrib_comp1 (s : ℚ → ℚ) (V : List ℚ) (v : Nat) (t : Nat × Nat × Nat) :
    faceContrib s V (v * 3 + 1) t =
      vertMult v t * (unitFaceNormal s V t.1 t.2.1 t.2.2).2.1 := by
  obtain ⟨a, b, c⟩ := t
  simp only [faceContrib, vertMult]
  rw [if_neg (show ¬ v * 3 + 1 = a * 3 by omega),
    if_neg (show ¬ v * 3 + 1 = a * 3 + 2 by omega),
    if_neg (show ¬ v * 3 + 1 = b * 3 by omega),
    if_neg (show ¬ v * 3 + 1 = b * 3 + 2 by omega),
    if_neg (show ¬ v * 3 + 1 = c * 3 by omega),
    if_neg (show ¬ v * 3 + 1 = c * 3 + 2 by omega)]
  have e : ∀ (w : ℕ) (x : ℚ), (if v * 3 + 1 = w * 3 + 1 then x else 0) =
      (if w = v then 1 else 0) * x := by
    intro w x
    by_cases h : w = v
    · subst h; rw [if_pos rfl, if_pos rfl, one_mul]
    · rw [if_neg (show ¬ v * 3 + 1 = w * 3 + 1 by omega), if_neg h, zero_mul]
  rw [e a, e b, e c]
  ring

/-- Third-component analogue of `faceContrib_comp0`. -/
theorem faceContrib_comp2 (s : ℚ → ℚ) (V : List ℚ) (v : Nat) (t : Nat × Nat × Nat) :
    faceContrib s V (v * 3 + 2) t =
      vertMult v t * (unitFaceNormal s V t.1 t.2.1 t.2.2).2.2 := by
  obtain ⟨a, b, c⟩ := t
  simp only [faceContrib, vertMult]
  rw [if_neg (show ¬ v * 3 + 2 = a * 3 by omega),
    if_neg (show ¬ v * 3 + 2 = a * 3 + 1 by omega),
    if_neg (show ¬ v * 3 + 2 = b * 3 by omega),
    if_neg (show ¬ v * 3 + 2 = b * 3 + 1 by omega),
    if_neg (show ¬ v * 3 + 2 = c * 3 by omega),
    if_neg (show ¬ v * 3 + 2 = c * 3 + 1 by omega)]
  have e : ∀ (w : ℕ) (x : ℚ), (if v * 3 + 2 = w * 3 + 2 then x else 0) =
      (if w = v then 1 else 0) * x := by
    intro w x
    by_cases h : w = v
    · subst h; rw [if_pos rfl, if_pos rfl, one_mul]
    · rw [if_neg (show ¬ v * 3 + 2 = w * 3 + 2 by omega), if_neg h, zero_mul]
  rw [e a, e b, e c]
  ring

/-- The unit-weighted sum fold, decomposed into three mapped sums. -/
theorem unitNormalSum_aux (s : ℚ → ℚ) (V : List ℚ) (v : Nat) :
    ∀ (T : List (Nat × Nat × Nat)) (acc : ℚ × ℚ × ℚ),
      T.foldl (fun acc t =>
        let u := unitFaceNormal s V t.1 t.2.1 t.2.2
        let m := vertMult v t
        (acc.1 + m * u.1, acc.2.1 + m * u.2.1, acc.2.2 + m * u.2.2)) acc =
      (acc.1 +
        (T.map fun t => vertMult v t * (unitFaceNormal s V t.1 t.2.1 t.2.2).1).sum,
       acc.2.1 +
        (T.map fun t => vertMult v t * (unitFaceNormal s V t.1 t.2.1 t.2.2).2.1).sum,
       acc.2.2 +
        (T.map fun t => vertMult v t * (unitFaceNormal s V t.1 t.2.1 t.2.2).2.2).sum)
  | [], acc => by simp
  | t :: rest, acc => by
    rw [List.foldl_cons, unitNormalSum_aux s V v rest _]
    simp only [List.map_cons, List.sum_cons]
    refine congrArg₂ Prod.mk ?_ (congrArg₂ Prod.mk ?_ ?_) <;> dsimp only <;> ring

/-- The unit-weighted per-vertex normal sum as three mapped sums. -/
theorem unitNormalSum_eq (s : ℚ → ℚ) (V : List ℚ) (T : List (Nat × Nat × Nat))
    (v : Nat) :
    unitNormalSum s V T v =
      ((T.map fun t => vertMult v t * (unitFaceNormal s V t.1 t.2.1 t.2.2).1).sum,
       (T.map fun t => vertMult v t * (unitFaceNormal s V t.1 t.2.1 t.2.2).2.1).sum,
       (T.map fun t => vertMult v t * (unitFaceNormal s V t.1 t.2.1 t.2.2).2.2).sum) := by
  unfold unitNormalSum
  rw [unitNormalSum_aux]
  simp

/-- A zeroed accumulator reads zero everywhere. -/
theorem getD_replicate_zero (n i : Nat) : (List.replicate n (0 : ℚ)).getD i 0 = 0 := by
  rw [List.getD_eq_getElem?_getD, List.getElem?_replicate]
  split <;> rfl

/-- C5 amended: for every rational mesh whose face corner indices read and
write in range, the pre-normalization per-vertex accumulator of
`generateNormals` equals the UNIT-weighted sum of incident face normals
(each face contributes its normalized face normal, counted with corner
multiplicity) — not the area-weighted sum: the code normalizes the cross
product before accumulating it. -/
theorem c5_unit_weighted_amended (s : ℚ → ℚ) (V : List ℚ)
    (T : List (Nat × Nat × Nat)) (v : Nat)
    (hT : ∀ t ∈ T, t.1 * 3 + 2 < V.length ∧ t.2.1 * 3 + 2 < V.length ∧
      t.2.2 * 3 + 2 < V.length)
    (hv : v * 3 + 2 < V.length) (hV : V.length % 3 = 0) :
    tripleAtJS (accumulatedVertexNormals s (V.map JSNum.fin) (flattenTriples T)) v =
      (.fin (unitNormalSum s V T v).1, .fin (unitNormalSum s V T v).2.1,
       .fin (unitNormalSum s V T v).2.2) := by
  unfold accumulatedVertexNormals
  have hlen : (V.map JSNum.fin).length / 3 * 3 = V.length := by
    rw [List.length_map]; omega
  rw [hlen, show (JSNum.fin 0) = JSNum.fin (0 : ℚ) from rfl, ← List.map_replicate]
  rw [accumFaces_map s V T _ hT (by rw [List.length_replicate])]
  unfold tripleAtJS
  have hrl : ∀ i : Nat, i < V.length →
      i < (accumFacesQ s V T (List.replicate V.length (0 : ℚ))).length := by
    intro i hi
    rw [accumFacesQ_length, List.length_replicate]
    exact hi
  have hTr : ∀ t ∈ T, t.1 * 3 + 2 < (List.replicate V.length (0 : ℚ)).length ∧
      t.2.1 * 3 + 2 < (List.replicate V.length (0 : ℚ)).length ∧
      t.2.2 * 3 + 2 < (List.replicate V.length (0 : ℚ)).length := by
    intro t ht
    rw [List.length_replicate]
    exact hT t ht
  rw [getD_map_fin _ _ (hrl (v * 3) (by omega)),
    getD_map_fin _ _ (hrl (v * 3 + 1) (by omega)),
    getD_map_fin _ _ (hrl (v * 3 + 2) (by omega))]
  rw [accumFacesQ_getD s V (v * 3) T _ hTr,
    accumFacesQ_getD s V (v * 3 + 1) T _ hTr,
    accumFacesQ_getD s V (v * 3 + 2) T _ hTr]
  rw [getD_replicate_zero, getD_replicate_zero, getD_replicate_zero]
  rw [List.map_congr_left (fun t _ => faceContrib_comp0 s V v t),
    List.map_congr_left (fun t _ => faceContrib_comp1 s V v t),
    List.map_congr_left (fun t _ => faceContrib_comp2 s V v t)]
  rw [unitNormalSum_eq]
  simp

/-- C5 amended witness: on the two-face demonstration mesh the accumulator
triple at vertex 0 is the unit-weighted sum there. -/
theorem c5_unit_weighted_amended_witness :
    tripleAtJS (accumulatedVertexNormals ratSqrt (normalsDemoVertices.map JSNum.fin)
        (flattenTriples normalsDemoFaces)) 0 =
      (.fin (unitNormalSum ratSqrt normalsDemoVertices normalsDemoFaces 0).1,
       .fin (unitNormalSum ratSqrt normalsDemoVertices normalsDemoFaces 0).2.1,
       .fin (unitNormalSum ratSqrt normalsDemoVertices normalsDemoFaces 0).2.2) :=
  c5_unit_weighted_amended ratSqrt normalsDemoVertices normalsDemoFaces 0
    (by decide) (by decide) (by decide)

/-- C5 counterexample: on the demonstration mesh (a face of area 1/2 and a
face of area 1 sharing vertices 0 and 1, exact square roots 1 and 2), the
code's accumulated normal at vertex 0 is the unit-weighted sum
`(0, -1, 1)`, while the claim's area-weighted sum of face normals there is
`(0, -2, 1)`: the larger face counts double in the claimed sum but not in
the code's. -/
theorem c5_area_weighting_counterexample :
    tripleAtJS (accumulatedVertexNormals ratSqrt (normalsDemoVertices.map JSNum.fin)
        (flattenTriples normalsDemoFaces)) 0 =
      (.fin 0, .fin (-1), .fin 1) ∧
    unitNormalSum ratSqrt normalsDemoVertices normalsDemoFaces 0 = (0, -1, 1) ∧
    areaWeightedNormalSum normalsDemoVertices normalsDemoFaces 0 = (0, -2, 1) ∧
    ((0, -1, 1) : ℚ × ℚ × ℚ) ≠ (0, -2, 1) ∧
    ratSqrt 1 = 1 ∧ ratSqrt 4 = 2 :=
  ⟨by with_unfolding_all rfl, by with_unfolding_all decide,
   by with_unfolding_all decide, by with_unfolding_all decide,
   by with_unfolding_all decide, by with_unfolding_all decide⟩

/-- An all-`A` byte run decodes as the same run of `A` characters. -/
theorem utf8DecodeAux_repA : ∀ n : Nat,
    utf8DecodeAux n (List.replicate n 65) = List.replicate n 'A'
  | 0 => rfl
  | n + 1 => by
    show utf8DecodeAux (n + 1) (65 :: List.replicate n 65) =
      'A' :: List.replicate n 'A'
    show (if 65 < 0x80 then Char.ofNat 65 :: utf8DecodeAux n (List.replicate n 65)
      else if 65 < 0xC2 then repChar :: utf8DecodeAux n (List.replicate n 65)
      else _) = _
    rw [if_pos (show (65 : Nat) < 0x80 by norm_num), utf8DecodeAux_repA n]

/-- A run of `A` characters encodes as the same run of `A` bytes. -/
theorem utf8Encode_repA : ∀ n : Nat,
    utf8Encode (List.replicate n 'A') = List.replicate n 65
  | 0 => rfl
  | n + 1 => by
    show utf8EncodeChar 'A' ++ utf8Encode (List.replicate n 'A') =
      65 :: List.replicate n 65
    rw [utf8Encode_repA n]
    rfl

/-- The text window of the demonstration buffer: its first 10 000 bytes. -/
theorem writerDemoBuffer_take :
    writerDemoBuffer.take (min writerDemoBuffer.length 10000) =
      List.replicate 10000 65 := by
  have hlen : writerDemoBuffer.length = 10001 := by
    unfold writerDemoBuffer
    rw [List.length_append, List.length_replicate]
    rfl
  rw [hlen, show min 10001 10000 = (List.replicate 10000 (65 : Nat)).length by
    rw [List.length_replicate]
    exact min_eq_right (by norm_num)]
  show (List.replicate 10000 (65 : Nat) ++ [66]).take _ = _
  exact List.take_left _ _

/-- The demonstration buffer's tail beyond the text window. -/
theorem writerDemoBuffer_drop :
    writerDemoBuffer.drop 10000 = [66] := by
  rw [show (10000 : ℕ) = (List.replicate 10000 (65 : Nat)).length by
    rw [List.length_replicate]]
  show (List.replicate 10000 (65 : Nat) ++ [66]).drop _ = _
  exact List.drop_left _ _

set_option maxRecDepth 40000 in
/-- C2: the spec requires the encode step to keep the bytes beyond the
first 10 000 unmodified in the output, followed by the provenance comment
at the very end; but the code rebuilds the file from the decoded 10 000
byte window only (its full copy `modifiedBuffer` is never used), so on a
10 001-byte buffer the `B` tail byte is absent from the output and the
comment follows the window directly, differing from the required
output. -/
theorem c2_tail_bytes_dropped :
    generateModifiedFile writerDemoTimestamp writerDemoBuffer [] =
      List.replicate 10000 65 ++
        utf8Encode (metadataComment writerDemoTimestamp []) ∧
    specPreservingOutput writerDemoTimestamp writerDemoBuffer [] =
      List.replicate 10000 65 ++ 66 ::
        utf8Encode (metadataComment writerDemoTimestamp []) ∧
    generateModifiedFile writerDemoTimestamp writerDemoBuffer [] ≠
      specPreservingOutput writerDemoTimestamp writerDemoBuffer [] := by
  have hwin : utf8Encode (utf8Decode (writerDemoBuffer.take
      (min writerDemoBuffer.length 10000))) = List.replicate 10000 65 := by
    rw [writerDemoBuffer_take]
    show utf8Encode (utf8DecodeAux (List.replicate 10000 (65 : Nat)).length
      (List.replicate 10000 65)) = _
    rw [List.length_replicate, utf8DecodeAux_repA, utf8Encode_repA]
  have h1 : generateModifiedFile writerDemoTimestamp writerDemoBuffer [] =
      List.replicate 10000 65 ++
        utf8Encode (metadataComment writerDemoTimestamp []) := by
    unfold generateModifiedFile
    simp only [List.foldl_nil]
    rw [hwin]
  have h2 : specPreservingOutput writerDemoTimestamp writerDemoBuffer [] =
      List.replicate 10000 65 ++ 66 ::
        utf8Encode (metadataComment writerDemoTimestamp []) := by
    unfold specPreservingOutput
    simp only [List.foldl_nil]
    rw [hwin, writerDemoBuffer_drop, List.append_assoc]
    rfl
  refine ⟨h1, h2, fun h => ?_⟩
  rw [h1, h2] at h
  have := congrArg List.length h
  simp only [List.length_append, List.length_replicate, List.length_cons] at this
  omega
